import Mathlib

set_option maxRecDepth 8000

/-!
Shallow embedding of the csbase storage engine
(src/engine/asl.rs, src/engine/pages.rs, src/engine/fs.rs).

Modelling conventions:
* bytes are `Nat` (the code only ever produces values < 256);
* machine words (Rust `usize`) are serialised as 8 big-endian bytes,
  `u32` as 4 big-endian bytes, matching the 64-bit host the code runs on;
* `i32` is `Int`; where the source relies on the i32 range the theorems
  carry the corresponding bound;
* `f32` values are represented by their 32-bit IEEE-754 bit pattern
  (a `Nat` below 2^32); comparison, the `as i32` / `as f32` casts and the
  arithmetic operations are defined on bit patterns below, arithmetic by
  exact rational computation followed by round-to-nearest-even, which is
  the IEEE-754 (and hence Rust) semantics;
* Rust `String` values are represented by their UTF-8 byte sequences
  (`List Nat`): `len()`, equality, `Ord` and concatenation on Rust strings
  coincide with length, equality, lexicographic order and append on the
  byte sequences;
* file-system state is passed explicitly: a table data file is a
  `List Nat` of bytes, and the `DBFileSystem` operations become functions
  from the old file contents to the new ones.
-/

namespace Csbase

/-- Host machine word size in bytes, `mem::size_of::<usize>()` (64-bit host). -/
def USIZE_SIZE : Nat := 8

/-- Size of `u32` in bytes, `mem::size_of::<u32>()`. -/
def U32_SIZE : Nat := 4

/-- Fixed page size `PAGE_SIZE = 8 * 1024` from pages.rs. -/
def PAGE_SIZE : Nat := 8 * 1024

/-- Page body size, `PAGE_SIZE - U32_SIZE - USIZE_SIZE*2` from pages.rs. -/
def PAGE_DATA_SIZE : Nat := PAGE_SIZE - U32_SIZE - USIZE_SIZE * 2

/-- Big-endian byte encoding of `n` on `len` bytes (Rust `to_be_bytes`,
truncating to the low `len` bytes, which is exact for in-range values). -/
def natToBeBytes (n : Nat) : Nat → List Nat
  | 0 => []
  | len + 1 => natToBeBytes (n / 256) len ++ [n % 256]

/-- Big-endian byte decoding (Rust `from_be_bytes`). -/
def beBytesToNat (bytes : List Nat) : Nat :=
  bytes.foldl (fun acc b => acc * 256 + b) 0

/-- The slice `l[off..off+len]` of a byte buffer. -/
def sliceList (l : List Nat) (off len : Nat) : List Nat :=
  (l.drop off).take len

/-- Model of `copy_bytes_into` (utils.rs): overwrite `dst` with `src`
starting at `off`.  In the source the destination is a fixed-size array and
all writes are in bounds; the list model keeps the untouched prefix and
suffix. -/
def listWrite (dst src : List Nat) (off : Nat) : List Nat :=
  dst.take off ++ (src ++ dst.drop (off + src.length))

/-! IEEE-754 binary32 model on bit patterns. -/

/-- Sign bit of an f32 bit pattern. -/
def f32sign (w : Nat) : Nat := w / 2 ^ 31 % 2

/-- Biased exponent field of an f32 bit pattern. -/
def f32exp (w : Nat) : Nat := w / 2 ^ 23 % 256

/-- Fraction field of an f32 bit pattern. -/
def f32frac (w : Nat) : Nat := w % 2 ^ 23

/-- Whether the bit pattern denotes a NaN. -/
def f32IsNaN (w : Nat) : Bool := f32exp w == 255 && f32frac w != 0

/-- Whether the bit pattern denotes an infinity. -/
def f32IsInf (w : Nat) : Bool := f32exp w == 255 && f32frac w == 0

/-- Whether the bit pattern denotes a (positive or negative) zero. -/
def f32IsZero (w : Nat) : Bool := f32exp w == 0 && f32frac w == 0

/-- Order key of a non-NaN f32: sign-magnitude bit patterns compare like
the real numbers they denote, with both zeros mapped to key 0. -/
def f32key (w : Nat) : Int :=
  if f32sign w == 0 then ((w % 2 ^ 31 : Nat) : Int) else -((w % 2 ^ 31 : Nat) : Int)

/-- IEEE-754 equality on f32 (Rust `==` on `f32`): NaN equals nothing,
+0 equals -0, distinct finite values are distinct. -/
def f32beq (a b : Nat) : Bool :=
  !f32IsNaN a && !f32IsNaN b && f32key a == f32key b

/-- Rust `!=` on `f32` (negation of `==`). -/
def f32ne (a b : Nat) : Bool := !(f32beq a b)

/-- Rust `partial_cmp` on `f32`: `none` iff an operand is NaN, otherwise
the numeric order. -/
def f32partialCmp (a b : Nat) : Option Ordering :=
  if f32IsNaN a || f32IsNaN b then none else some (compare (f32key a) (f32key b))

/-- Rust `<` on `f32`. -/
def f32lt (a b : Nat) : Bool := f32partialCmp a b == some Ordering.lt

/-- Rust saturating cast `f32 as i32`: truncation toward zero, NaN goes to
0, out-of-range values saturate at the i32 bounds. -/
def f32ToI32 (w : Nat) : Int :=
  if f32IsNaN w then 0
  else if f32exp w == 255 then (if f32sign w == 0 then 2 ^ 31 - 1 else -(2 ^ 31))
  else
    let M : Nat := if f32exp w == 0 then f32frac w else 2 ^ 23 + f32frac w
    let e : Nat := if f32exp w == 0 then 1 else f32exp w
    let mag : Nat := if e ≥ 150 then M * 2 ^ (e - 150) else M / 2 ^ (150 - e)
    let v : Int := if f32sign w == 0 then (mag : Int) else -(mag : Int)
    if v < -(2 ^ 31) then -(2 ^ 31) else if v > 2 ^ 31 - 1 then 2 ^ 31 - 1 else v

/-- Number of binary digits of `n` (0 for 0), with explicit fuel so that the
definition is structurally recursive; `fuel ≥ n + 1` always suffices. -/
def bitLenAux : Nat → Nat → Nat
  | 0, _ => 0
  | fuel + 1, n => if n == 0 then 0 else bitLenAux fuel (n / 2) + 1

/-- Number of binary digits of `n`. -/
def bitLen (n : Nat) : Nat := bitLenAux (n + 1) n

/-- Round the nonnegative rational `c / d` to the nearest integer, ties to
even (the IEEE-754 default rounding). -/
def rneNat (c d : Nat) : Nat :=
  let n := c / d
  let r2 := 2 * (c % d)
  if r2 > d then n + 1 else if r2 < d then n else if n % 2 == 1 then n + 1 else n

/-- Encode the rational with sign `s` and magnitude `a / b` (`a, b > 0`)
into the nearest f32 bit pattern (round to nearest, ties to even), with
gradual underflow to subnormals and overflow to infinity. -/
def encodeF32 (s a b : Nat) : Nat :=
  let m0 := a * 2 ^ 149 / b
  if m0 < 2 ^ 23 then
    s * 2 ^ 31 + rneNat (a * 2 ^ 149) b
  else
    let k := bitLen m0
    let q := rneNat (a * 2 ^ 149) (b * 2 ^ (k - 24))
    let be := if q == 2 ^ 24 then k - 22 else k - 23
    let frac := if q == 2 ^ 24 then 0 else q - 2 ^ 23
    if be ≥ 255 then s * 2 ^ 31 + 255 * 2 ^ 23
    else s * 2 ^ 31 + be * 2 ^ 23 + frac

/-- Numerator of the exact magnitude of a finite f32: the value denoted by
the bit pattern is `(-1)^sign * f32num w / 2^150`. -/
def f32num (w : Nat) : Nat :=
  (if f32exp w == 0 then f32frac w else 2 ^ 23 + f32frac w) *
    2 ^ (if f32exp w == 0 then 1 else f32exp w)

/-- The canonical quiet NaN bit pattern produced by invalid operations. -/
def f32qNaN : Nat := 0x7FC00000

/-- Negation of an f32 bit pattern (flip the sign bit). -/
def f32neg (w : Nat) : Nat :=
  if f32sign w == 0 then w + 2 ^ 31 else w - 2 ^ 31

/-- Rust cast `i32 as f32`: round to nearest, ties to even. -/
def intToF32 (i : Int) : Nat :=
  if i == 0 then 0
  else encodeF32 (if i < 0 then 1 else 0) i.natAbs 1

/-- IEEE-754 f32 addition on bit patterns (Rust `+` on `f32`): exact
rational sum of the operands, rounded to nearest even; special values per
IEEE-754, an exact zero sum is +0 unless both operands are negative. -/
def f32add (x y : Nat) : Nat :=
  if f32IsNaN x || f32IsNaN y then f32qNaN
  else if f32IsInf x && f32IsInf y then
    (if f32sign x == f32sign y then x else f32qNaN)
  else if f32IsInf x then x
  else if f32IsInf y then y
  else
    let nx : Int := if f32sign x == 0 then (f32num x : Int) else -(f32num x : Int)
    let ny : Int := if f32sign y == 0 then (f32num y : Int) else -(f32num y : Int)
    let n := nx + ny
    if n = 0 then (if f32sign x == 1 && f32sign y == 1 then 2 ^ 31 else 0)
    else encodeF32 (if n < 0 then 1 else 0) n.natAbs (2 ^ 150)

/-- IEEE-754 f32 subtraction (Rust `-` on `f32`): `x + (-y)` exactly. -/
def f32sub (x y : Nat) : Nat := f32add x (f32neg y)

/-- IEEE-754 f32 multiplication on bit patterns (Rust `*` on `f32`). -/
def f32mul (x y : Nat) : Nat :=
  if f32IsNaN x || f32IsNaN y then f32qNaN
  else
    let s := if f32sign x == f32sign y then 0 else 1
    if f32IsInf x || f32IsInf y then
      (if f32IsZero x || f32IsZero y then f32qNaN else s * 2 ^ 31 + 255 * 2 ^ 23)
    else
      let n := f32num x * f32num y
      if n == 0 then s * 2 ^ 31
      else encodeF32 s n (2 ^ 300)

/-- IEEE-754 f32 division on bit patterns (Rust `/` on `f32`): in
particular a nonzero finite value divided by a zero gives an infinity,
and 0/0 gives NaN -- there is no error. -/
def f32div (x y : Nat) : Nat :=
  if f32IsNaN x || f32IsNaN y then f32qNaN
  else
    let s := if f32sign x == f32sign y then 0 else 1
    if f32IsInf x && f32IsInf y then f32qNaN
    else if f32IsInf x then s * 2 ^ 31 + 255 * 2 ^ 23
    else if f32IsInf y then s * 2 ^ 31
    else if f32IsZero y then (if f32IsZero x then f32qNaN else s * 2 ^ 31 + 255 * 2 ^ 23)
    else if f32IsZero x then s * 2 ^ 31
    else encodeF32 s (f32num x) (f32num y)

/-- Wrap an integer into the i32 range (the source adds, subtracts and
multiplies `i32` values with the plain operators, which wrap in release
builds; none of the claims exercises an overflowing input). -/
def wrap32 (x : Int) : Int := (x + 2 ^ 31) % 2 ^ 32 - 2 ^ 31

/-! The value and expression algebra of asl.rs. -/

/-- The `Type` enumeration of asl.rs (named `ColType` here because `Type`
is reserved in Lean). -/
inductive ColType where
  | str
  | bool
  | int
  | float
  deriving DecidableEq, Repr

/-- The `Value` enumeration of asl.rs.  The `Null` variant appears in the
pages.rs revision of the sources (`asl::Value::Null`) and in the spec data
model even though the asl.rs revision in the tree omits it; its behaviour in
the operations below follows the spec (never equal, unordered, invalid for
arithmetic), which coincides with the catch-all arms of the source matches. -/
inductive Value where
  | str (bytes : List Nat)
  | bool (b : Bool)
  | int (i : Int)
  | float (bits : Nat)
  | null
  deriving DecidableEq, Repr

/-- The query error family (errors.rs plus the `ValidationError` variant,
which asl.rs and db.rs construct although the errors.rs revision in the
tree predates it; its payload is the message string). -/
inductive QueryError where
  | parseError (msg : String)
  | ioError
  | notFound (name : String)
  | conflict (name : String)
  | validationError (msg : String)
  deriving DecidableEq, Repr

/-- The paging error family used by pages.rs (`PagingError` is referenced
by pages.rs; the errors.rs revision in the tree predates it). -/
inductive PagingError where
  | invalidSliceLength
  | notEnoughSpace
  deriving DecidableEq, Repr

/-- Decidable equality for `Except`, used to settle concrete runs of the
fallible operations. -/
instance {ε α : Type} [DecidableEq ε] [DecidableEq α] : DecidableEq (Except ε α) := fun x y =>
  match x, y with
  | .ok a, .ok b =>
    if h : a = b then isTrue (congrArg Except.ok h)
    else isFalse (fun hh => h (Except.ok.inj hh))
  | .error a, .error b =>
    if h : a = b then isTrue (congrArg Except.error h)
    else isFalse (fun hh => h (Except.error.inj hh))
  | .ok _, .error _ => isFalse (fun hh => Except.noConfusion hh)
  | .error _, .ok _ => isFalse (fun hh => Except.noConfusion hh)

/-- The message of every type-mismatch validation error in asl.rs. -/
def invalidTypesErr : QueryError :=
  QueryError.validationError ("Invalid types for operator")

/-- The division-by-zero validation error of asl.rs. -/
def divByZeroErr : QueryError :=
  QueryError.validationError ("Division by 0")

/-- Rust `impl std::ops::Add for Value` from asl.rs. -/
def Value.add : Value → Value → Except QueryError Value
  | .int a, .int b => .ok (.int (wrap32 (a + b)))
  | .int a, .float w => .ok (.float (f32add (intToF32 a) w))
  | .int _, _ => .error invalidTypesErr
  | .float w, .int b => .ok (.float (f32add w (intToF32 b)))
  | .float w, .float v => .ok (.float (f32add w v))
  | .float _, _ => .error invalidTypesErr
  | .str s, .str t => .ok (.str (s ++ t))
  | .str _, _ => .error invalidTypesErr
  | _, _ => .error invalidTypesErr

/-- Rust `impl std::ops::Sub for Value` from asl.rs. -/
def Value.sub : Value → Value → Except QueryError Value
  | .int a, .int b => .ok (.int (wrap32 (a - b)))
  | .int a, .float w => .ok (.float (f32sub (intToF32 a) w))
  | .int _, _ => .error invalidTypesErr
  | .float w, .int b => .ok (.float (f32sub w (intToF32 b)))
  | .float w, .float v => .ok (.float (f32sub w v))
  | .float _, _ => .error invalidTypesErr
  | _, _ => .error invalidTypesErr

/-- Rust `impl std::ops::Mul for Value` from asl.rs. -/
def Value.mul : Value → Value → Except QueryError Value
  | .int a, .int b => .ok (.int (wrap32 (a * b)))
  | .int a, .float w => .ok (.float (f32mul (intToF32 a) w))
  | .int _, _ => .error invalidTypesErr
  | .float w, .int b => .ok (.float (f32mul w (intToF32 b)))
  | .float w, .float v => .ok (.float (f32mul w v))
  | .float _, _ => .error invalidTypesErr
  | _, _ => .error invalidTypesErr

/-- Rust `impl std::ops::Div for Value` from asl.rs: only the `Int`
dividend arm checks the divisor for zero; the `Float` dividend arms divide
unconditionally. -/
def Value.div : Value → Value → Except QueryError Value
  | .int a, .int b =>
    if b ≠ 0 then .ok (.float (f32div (intToF32 a) (intToF32 b)))
    else .error divByZeroErr
  | .int a, .float w =>
    if f32ne w 0 then .ok (.float (f32div (intToF32 a) w))
    else .error divByZeroErr
  | .int _, _ => .error invalidTypesErr
  | .float w, .int b => .ok (.float (f32div w (intToF32 b)))
  | .float w, .float v => .ok (.float (f32div w v))
  | .float _, _ => .error invalidTypesErr
  | _, _ => .error invalidTypesErr

/-- Lexicographic comparison of byte sequences (Rust `Ord` on `String`
compares the UTF-8 bytes lexicographically). -/
def listCompare : List Nat → List Nat → Ordering
  | [], [] => Ordering.eq
  | [], _ :: _ => Ordering.lt
  | _ :: _, [] => Ordering.gt
  | a :: xs, b :: ys =>
    match compare a b with
    | Ordering.eq => listCompare xs ys
    | o => o

/-- Rust `impl std::cmp::PartialEq for Value` from asl.rs: cross int/float
equality promotes the integer to float; mismatched variants are unequal. -/
def Value.beqv : Value → Value → Bool
  | .int a, .int b => a == b
  | .int a, .float w => f32beq (intToF32 a) w
  | .int _, _ => false
  | .float w, .int b => f32beq w (intToF32 b)
  | .float w, .float v => f32beq w v
  | .float _, _ => false
  | .str s, .str t => s == t
  | .str _, _ => false
  | .bool a, .bool b => a == b
  | .bool _, _ => false
  | .null, _ => false

/-- Rust `impl std::cmp::PartialOrd for Value` from asl.rs.  Note the
`Int`-first / `Float`-second arm: the source truncates the float to an
`i32` (`value1.cmp(&(*value2 as i32))`) instead of promoting the integer,
while the `Float`-first / `Int`-second arm promotes
(`value1.partial_cmp(&(*value2 as f32))`). -/
def Value.partialCmp : Value → Value → Option Ordering
  | .int a, .int b => some (compare a b)
  | .int a, .float w => some (compare a (f32ToI32 w))
  | .int _, _ => none
  | .float w, .int b => f32partialCmp w (intToF32 b)
  | .float w, .float v => f32partialCmp w v
  | .float _, _ => none
  | .str s, .str t => some (listCompare s t)
  | .str _, _ => none
  | .bool _, _ => none
  | .null, _ => none

/-- Rust `get_bool` from asl.rs. -/
def Value.getBool : Value → Except QueryError Bool
  | .bool b => .ok b
  | _ => .error (QueryError.validationError ("Value is not boolean"))

/-- The `Operator` enumeration of asl.rs. -/
inductive Operator where
  | add
  | subtract
  | multiply
  | divide
  deriving DecidableEq, Repr

/-- The `Comparator` enumeration of asl.rs. -/
inductive Comparator where
  | eq
  | neq
  | gt
  | gte
  | lt
  | lte
  deriving DecidableEq, Repr

/-- The `LogicOperator` enumeration of asl.rs. -/
inductive LogicOperator where
  | and
  | or
  deriving DecidableEq, Repr

/-- The `Expression` tree of asl.rs. -/
inductive Expression where
  | value (v : Value)
  | identifier (name : String)
  | op (e1 : Expression) (o : Operator) (e2 : Expression)
  | comp (e1 : Expression) (c : Comparator) (e2 : Expression)
  | logicOp (e1 : Expression) (lo : LogicOperator) (e2 : Expression)
  deriving DecidableEq, Repr

/-- The comparator dispatch in `Expression::evaluate`: `==`, `!=` from
`PartialEq` and `>`, `>=`, `<`, `<=` from `PartialOrd` (a `None` ordering
makes every ordering operator false). -/
def compValues (c : Comparator) (v1 v2 : Value) : Bool :=
  match c with
  | .eq => Value.beqv v1 v2
  | .neq => !Value.beqv v1 v2
  | .gt => Value.partialCmp v1 v2 == some Ordering.gt
  | .gte =>
    match Value.partialCmp v1 v2 with
    | some Ordering.gt => true
    | some Ordering.eq => true
    | _ => false
  | .lt => Value.partialCmp v1 v2 == some Ordering.lt
  | .lte =>
    match Value.partialCmp v1 v2 with
    | some Ordering.lt => true
    | some Ordering.eq => true
    | _ => false

/-- `Expression::evaluate` from asl.rs.  The identifier binding
(`Option<&HashMap<String, Value>>`) is modelled as an optional association
list; column names are unique so the first-match lookup agrees with the
hash map. -/
def evaluate : Expression → Option (List (String × Value)) → Except QueryError Value
  | .value v, _ => .ok v
  | .identifier name, env =>
    match env with
    | some m =>
      match m.lookup name with
      | some v => .ok v
      | none =>
        .error (QueryError.validationError
          ("Identifier " ++ name ++ " not present in provided values"))
    | none =>
      .error (QueryError.validationError
        ("Identifier values not provided but they were used in this expression"))
  | .op e1 o e2, env => do
    let v1 ← evaluate e1 env
    let v2 ← evaluate e2 env
    match o with
    | .add => Value.add v1 v2
    | .subtract => Value.sub v1 v2
    | .multiply => Value.mul v1 v2
    | .divide => Value.div v1 v2
  | .comp e1 c e2, env => do
    let v1 ← evaluate e1 env
    let v2 ← evaluate e2 env
    .ok (Value.bool (compValues c v1 v2))
  | .logicOp e1 lo e2, env => do
    let v1 ← evaluate e1 env
    let b1 ← v1.getBool
    let v2 ← evaluate e2 env
    let b2 ← v2.getBool
    .ok (Value.bool (match lo with | .and => b1 && b2 | .or => b1 || b2))

/-- A `Column` of asl.rs. -/
structure Column where
  name : String
  column_type : ColType
  deriving DecidableEq, Repr

/-- A `Table` schema of asl.rs. -/
structure Table where
  name : String
  columns : List Column
  deriving DecidableEq, Repr

/-- A `Record` of asl.rs. -/
structure Record where
  values : List Value
  deriving DecidableEq, Repr

/-- A `ColumnValue` of asl.rs (one assignment of an update's set list). -/
structure ColumnValue where
  column : String
  value : Value
  deriving DecidableEq, Repr

/-- Modelled from the spec: fs.rs calls `Expression::evaluate_for_record`,
which is absent from the sources in the tree; per spec section 4.5 the
condition is evaluated "against the binding {column_name -> value} built
from R and the schema". -/
def evaluateForRecord (e : Expression) (t : Table) (r : Record) : Except QueryError Value :=
  evaluate e (some ((t.columns.map Column.name).zip r.values))

/-! The item codec of pages.rs. -/

/-- Whether a value is `Null` (sets the corresponding null-bitmap bit in
`Item::from_record`). -/
def Value.isNull : Value → Bool
  | .null => true
  | _ => false

/-- The bytes `Item::from_record` appends to `field_data` for one value:
strings get a word-size big-endian length prefix followed by the raw
bytes, ints and floats are 4 big-endian bytes, booleans one byte, and a
null contributes nothing (`Value::to_be_bytes` plus the string length
prefix of the `Str` arm). -/
def encodeValue : Value → List Nat
  | .str s => natToBeBytes s.length USIZE_SIZE ++ s
  | .int i => natToBeBytes ((i % 2 ^ 32).toNat) U32_SIZE
  | .float w => natToBeBytes w U32_SIZE
  | .bool b => [if b then 1 else 0]
  | .null => []

/-- `Value::from_be_bytes` from asl.rs: decode a value of the given type
from its field bytes (for `Str` the caller already stripped the length
prefix; `from_utf8` validity is implicit in the byte-sequence model). -/
def Value.from_be_bytes (bytes : List Nat) : ColType → Value
  | .str => .str bytes
  | .bool => .bool (bytes.headD 0 == 1)
  | .int =>
    .int (if beBytesToNat (bytes.take 4) < 2 ^ 31
          then (beBytesToNat (bytes.take 4) : Int)
          else (beBytesToNat (bytes.take 4) : Int) - 2 ^ 32)
  | .float => .float (beBytesToNat (bytes.take 4))

/-- An `Item` of pages.rs: field count, null bitmap (one bit per field,
MSB first as in `BitVec`), packed field bytes. -/
structure Item where
  number_of_fields : Nat
  null_map : List Bool
  field_data : List Nat
  deriving DecidableEq, Repr

/-- `Item::get_null_map_length`: the null map length in bytes. -/
def nullMapLength (number_of_fields : Nat) : Nat :=
  number_of_fields / 8 + if number_of_fields % 8 == 0 then 0 else 1

/-- The eight bits of a byte, most significant first (`BitVec::from_bytes`
bit order). -/
def byteBits (b : Nat) : List Bool :=
  [b / 128 % 2 == 1, b / 64 % 2 == 1, b / 32 % 2 == 1, b / 16 % 2 == 1,
   b / 8 % 2 == 1, b / 4 % 2 == 1, b / 2 % 2 == 1, b % 2 == 1]

/-- `BitVec::from_bytes`: all bits of the byte sequence, MSB first. -/
def bytesToBits (bytes : List Nat) : List Bool :=
  (bytes.map byteBits).flatten

/-- Pack eight bits (MSB first) into a byte. -/
def byteOfBits (bits : List Bool) : Nat :=
  bits.foldl (fun acc b => acc * 2 + (if b then 1 else 0)) 0

/-- `BitVec::to_bytes`: pack the bits into bytes, MSB first, padding the
last byte with zero bits. -/
def bitsToBytes : List Bool → List Nat
  | [] => []
  | b0 :: b1 :: b2 :: b3 :: b4 :: b5 :: b6 :: b7 :: rest =>
    byteOfBits [b0, b1, b2, b3, b4, b5, b6, b7] :: bitsToBytes rest
  | l => [byteOfBits (l ++ List.replicate (8 - l.length) false)]

/-- `Item::from_record` from pages.rs: the bitmap records the null fields
and `field_data` is the concatenation of the per-field encodings (the
source builds both in a single pass over the record). -/
def Item.from_record (r : Record) : Item :=
  { number_of_fields := r.values.length,
    null_map := r.values.map Value.isNull,
    field_data := (r.values.map encodeValue).flatten }

/-- `Item::to_page_data` from pages.rs: word-size field count, packed null
bitmap, field bytes. -/
def Item.to_page_data (it : Item) : List Nat :=
  natToBeBytes it.number_of_fields USIZE_SIZE ++ bitsToBytes it.null_map ++ it.field_data

/-- `Item::from_page_data` from pages.rs. -/
def Item.from_page_data (page_data : List Nat) : Item :=
  let n := beBytesToNat (sliceList page_data 0 USIZE_SIZE)
  { number_of_fields := n,
    null_map := bytesToBits (sliceList page_data USIZE_SIZE (nullMapLength n)),
    field_data := page_data.drop (USIZE_SIZE + nullMapLength n) }

/-- The loop body of `Item::to_record`: walk the schema columns, reading
the null bit at the field index and otherwise consuming the
schema-determined number of field bytes at the running offset (a word-size
length prefix plus that many bytes for `Str`, 4 bytes for `Int` and
`Float`, 1 byte for `Bool`). -/
def toRecordGo (nm : List Bool) (fd : List Nat) : List Column → Nat → Nat → List Value
  | [], _, _ => []
  | c :: cs, idx, off =>
    if nm.getD idx false then
      Value.null :: toRecordGo nm fd cs (idx + 1) off
    else
      match c.column_type with
      | .str =>
        let size := beBytesToNat (sliceList fd off USIZE_SIZE)
        Value.from_be_bytes (sliceList fd (off + USIZE_SIZE) size) ColType.str ::
          toRecordGo nm fd cs (idx + 1) (off + USIZE_SIZE + size)
      | .int =>
        Value.from_be_bytes (sliceList fd off 4) ColType.int ::
          toRecordGo nm fd cs (idx + 1) (off + 4)
      | .float =>
        Value.from_be_bytes (sliceList fd off 4) ColType.float ::
          toRecordGo nm fd cs (idx + 1) (off + 4)
      | .bool =>
        Value.from_be_bytes (sliceList fd off 1) ColType.bool ::
          toRecordGo nm fd cs (idx + 1) (off + 1)

/-- `Item::to_record` from pages.rs. -/
def Item.to_record (it : Item) (t : Table) : Record :=
  { values := toRecordGo it.null_map it.field_data t.columns 0 0 }

/-! The page container of pages.rs. -/

/-- A `Page` of pages.rs: 32-bit id, the two free-space offsets, and the
fixed-size body (`PAGE_DATA_SIZE` bytes in the source array). -/
structure Page where
  id : Nat
  free_space_start : Nat
  free_space_end : Nat
  data : List Nat
  deriving DecidableEq, Repr

/-- `Page::new`: an empty page with a zeroed body. -/
def Page.new (id : Nat) : Page :=
  { id := id, free_space_start := 0, free_space_end := PAGE_DATA_SIZE,
    data := List.replicate PAGE_DATA_SIZE 0 }

/-- `Page::to_bytes`: write the id, the two offsets and the body into a
zeroed `PAGE_SIZE` buffer in order. -/
def Page.toBytes (p : Page) : List Nat :=
  let b0 := List.replicate PAGE_SIZE 0
  let b1 := listWrite b0 (natToBeBytes p.id U32_SIZE) 0
  let b2 := listWrite b1 (natToBeBytes p.free_space_start USIZE_SIZE) U32_SIZE
  let b3 := listWrite b2 (natToBeBytes p.free_space_end USIZE_SIZE) (U32_SIZE + USIZE_SIZE)
  listWrite b3 p.data (U32_SIZE + USIZE_SIZE * 2)

/-- `Page::from_bytes`: read the id, the two offsets and the body back at
the same offsets. -/
def Page.fromBytes (bytes : List Nat) : Page :=
  { id := beBytesToNat (sliceList bytes 0 U32_SIZE),
    free_space_start := beBytesToNat (sliceList bytes U32_SIZE USIZE_SIZE),
    free_space_end := beBytesToNat (sliceList bytes (U32_SIZE + USIZE_SIZE) USIZE_SIZE),
    data := sliceList bytes (U32_SIZE + USIZE_SIZE * 2) PAGE_DATA_SIZE }

/-- The loop of `Page::get_item_offset_and_sizes`: read `(offset, size)`
word pairs from the slot directory while the cursor is below
`free_space_start`.  The fuel argument only bounds the recursion depth;
`free_space_start + 1` units always outlast the loop, which advances the
cursor by `2 * USIZE_SIZE` per step. -/
def itemSlotsGo (data : List Nat) (fss : Nat) : Nat → Nat → List (Nat × Nat)
  | _, 0 => []
  | cur, fuel + 1 =>
    if cur < fss then
      (beBytesToNat (sliceList data cur USIZE_SIZE),
       beBytesToNat (sliceList data (cur + USIZE_SIZE) USIZE_SIZE)) ::
        itemSlotsGo data fss (cur + 2 * USIZE_SIZE) fuel
    else []

/-- `Page::get_item_offset_and_sizes`. -/
def Page.itemSlots (p : Page) : List (Nat × Nat) :=
  itemSlotsGo p.data p.free_space_start 0 (p.free_space_start + 1)

/-- `Page::get_items`: reconstruct each item from its directory slot. -/
def Page.get_items (p : Page) : List Item :=
  p.itemSlots.map (fun os => Item.from_page_data (sliceList p.data os.1 os.2))

/-- `Page::add_item` from pages.rs, with the `&mut self` receiver made
explicit: the returned pair is the Rust return value together with the
final state of the page (unchanged when the space check fails). -/
def Page.addItemS (p : Page) (item : Item) : Except PagingError Unit × Page :=
  let item_data := item.to_page_data
  let item_size := item_data.length
  if item_size + USIZE_SIZE * 2 > p.free_space_end - p.free_space_start then
    (.error PagingError.notEnoughSpace, p)
  else
    let item_offset := p.free_space_end - item_size
    let d1 := listWrite p.data (natToBeBytes item_offset USIZE_SIZE) p.free_space_start
    let d2 := listWrite d1 (natToBeBytes item_size USIZE_SIZE) (p.free_space_start + USIZE_SIZE)
    let d3 := listWrite d2 item_data item_offset
    (.ok (),
     { id := p.id, free_space_start := p.free_space_start + USIZE_SIZE * 2,
       free_space_end := item_offset, data := d3 })

/-! The table file engine of fs.rs, with the file contents passed
explicitly as a byte list. -/

/-- One `file.read(&mut page_buffer)` into a zeroed `PAGE_SIZE` buffer at
the given offset (the claims only exercise files whose length is a
multiple of `PAGE_SIZE`, where the buffer is filled completely, so the
zero padding of a short final read is unobservable). -/
def readPage (file : List Nat) (off : Nat) : List Nat :=
  let s := sliceList file off PAGE_SIZE
  s ++ List.replicate (PAGE_SIZE - s.length) 0

/-- A `seek` to `off` followed by a `write` of `src` over the file. -/
def writeAt (file : List Nat) (off : Nat) (src : List Nat) : List Nat :=
  file.take off ++ src ++ file.drop (off + src.length)

/-- Modelled from the spec: the `?` on `new_page.add_item(&item)` in
`insert_record` converts the paging error into a query error, and the
errors.rs revision in the tree predates the conversion; spec section 4.5
says an item that does not fit in an empty page fails the insert with a
validation error (oversized record). -/
def pagingErrToQuery (_e : PagingError) : QueryError :=
  QueryError.validationError ("oversized record")

/-- `DBFileSystem::insert_record` from fs.rs on the explicit file state:
append the item to the last page, or on failure to a fresh page with the
successor id written one `PAGE_SIZE` further. -/
def insertRecordFile (r : Record) (file : List Nat) : Except QueryError (List Nat) :=
  let current_pages := file.length / PAGE_SIZE
  let item := Item.from_record r
  if current_pages > 0 then
    let last_page_offset := (current_pages - 1) * PAGE_SIZE
    let last_page := Page.fromBytes (readPage file last_page_offset)
    match Page.addItemS last_page item with
    | (.ok _, p2) => .ok (writeAt file last_page_offset p2.toBytes)
    | (.error _, _) =>
      let new_page := Page.new (last_page.id + 1)
      match Page.addItemS new_page item with
      | (.ok _, p2) => .ok (writeAt file (last_page_offset + PAGE_SIZE) p2.toBytes)
      | (.error e, _) => .error (pagingErrToQuery e)
  else
    let new_page := Page.new 1
    match Page.addItemS new_page item with
    | (.ok _, p2) => .ok (writeAt file 0 p2.toBytes)
    | (.error e, _) => .error (pagingErrToQuery e)

/-- The page streaming loop shared by scans and updates: split the file
into `PAGE_SIZE` chunks read into the page buffer.  The fuel is the file
length, which always outlasts the loop (each step drops `PAGE_SIZE` bytes). -/
def scanPagesGo : List Nat → Nat → List Page
  | _, 0 => []
  | file, fuel + 1 =>
    if file.isEmpty then []
    else Page.fromBytes (readPage file 0) :: scanPagesGo (file.drop PAGE_SIZE) fuel

/-- All pages of a table file in file order. -/
def scanPages (file : List Nat) : List Page :=
  scanPagesGo file file.length

/-- The per-record condition test shared by scans and updates: the record
is kept (or updated) when the condition is absent or evaluates to
`Bool(true)`; the comparison with `Value::Bool(true)` uses the `PartialEq`
of values. -/
def keepRecord (t : Table) (cond : Option Expression) (r : Record) :
    Except QueryError Bool :=
  match cond with
  | some c => do
    let v ← evaluateForRecord c t r
    pure (Value.beqv v (Value.bool true))
  | none => pure true

/-- The per-item loop of `DBFileSystem::select_records`: reconstruct the
record, evaluate the optional condition against it, and keep the record
when the test passes. -/
def selectGo (t : Table) (cond : Option Expression) :
    List Item → Except QueryError (List Record)
  | [] => .ok []
  | it :: its => do
    let record := it.to_record t
    let keep ← keepRecord t cond record
    let rest ← selectGo t cond its
    pure (if keep then record :: rest else rest)

/-- `DBFileSystem::select_records` from fs.rs.  Note that the `columns`
parameter is accepted but never used: the source pushes the full
reconstructed record without projecting. -/
def selectRecords (t : Table) (columns : List String) (cond : Option Expression)
    (file : List Nat) : Except QueryError (List Record) :=
  let _ := columns
  selectGo t cond ((scanPages file).map Page.get_items).flatten

/-- The per-item loop of `DBFileSystem::update_records`: evaluate the
optional condition for each reconstructed record.  When the condition
matches, the source replaces the named columns' values in the local
`record` variable and then drops it: no page is re-encoded and nothing is
written back, so the mutation is unobservable (apart from a panic when a
named column is missing, which the claims exclude) and is omitted here. -/
def updateGo (t : Table) (cond : Option Expression) : List Item → Except QueryError Unit
  | [] => .ok ()
  | it :: its => do
    let record := it.to_record t
    let _needs_update ← keepRecord t cond record
    updateGo t cond its

/-- `DBFileSystem::update_records` from fs.rs on the explicit file state:
the source streams every page and reconstructs every item but performs no
write, so on success the file contents are returned unchanged. -/
def updateRecords (t : Table) (values : List ColumnValue) (cond : Option Expression)
    (file : List Nat) : Except QueryError (List Nat) := do
  let _ := values
  updateGo t cond ((scanPages file).map Page.get_items).flatten
  pure file

/-! Basic facts about the byte-level helpers. -/

theorem natToBeBytes_length (n len : Nat) : (natToBeBytes n len).length = len := by
  induction len generalizing n with
  | zero => rfl
  | succ k ih => simp [natToBeBytes, ih]

theorem beBytesToNat_snoc (l : List Nat) (b : Nat) :
    beBytesToNat (l ++ [b]) = beBytesToNat l * 256 + b := by
  simp [beBytesToNat, List.foldl_append]

theorem beBytesToNat_natToBeBytes (n len : Nat) :
    beBytesToNat (natToBeBytes n len) = n % 256 ^ len := by
  induction len generalizing n with
  | zero => simp [natToBeBytes, beBytesToNat, Nat.mod_one]
  | succ k ih =>
    rw [natToBeBytes, beBytesToNat_snoc, ih]
    rw [pow_succ, Nat.mul_comm (256 ^ k) 256, Nat.mod_mul]
    ring

theorem beBytesToNat_natToBeBytes_of_lt {n len : Nat} (h : n < 256 ^ len) :
    beBytesToNat (natToBeBytes n len) = n := by
  rw [beBytesToNat_natToBeBytes, Nat.mod_eq_of_lt h]

theorem sliceList_zero (l : List Nat) (k : Nat) : sliceList l 0 k = l.take k := by
  simp [sliceList]

theorem sliceList_append (pre l : List Nat) (k : Nat) :
    sliceList (pre ++ l) pre.length k = l.take k := by
  simp [sliceList, List.drop_left]

theorem sliceList_suffix (pre l : List Nat) {k : Nat} (hk : l.length = k) :
    sliceList (pre ++ l) pre.length k = l := by
  rw [sliceList_append, ← hk, List.take_length]

theorem sliceList_front (a : List Nat) (rest : List Nat) {k : Nat} (hk : a.length = k) :
    sliceList (a ++ rest) 0 k = a := by
  rw [sliceList_zero, ← hk, List.take_left]

theorem listWrite_zero (dst src : List Nat) :
    listWrite dst src 0 = src ++ dst.drop src.length := by
  simp [listWrite]

theorem listWrite_at (X Y src : List Nat) :
    listWrite (X ++ Y) src X.length = X ++ (src ++ Y.drop src.length) := by
  unfold listWrite
  rw [List.take_left, List.drop_append]

theorem listWrite_length (dst src : List Nat) (off : Nat)
    (h : off + src.length ≤ dst.length) :
    (listWrite dst src off).length = dst.length := by
  simp only [listWrite, List.length_append, List.length_take, List.length_drop]
  omega

theorem slice_mid (A B C : List Nat) : sliceList (A ++ (B ++ C)) A.length B.length = B := by
  rw [sliceList_append, List.take_left]

theorem sliceList_listWrite_self (dst src : List Nat) (off : Nat)
    (h : off ≤ dst.length) :
    sliceList (listWrite dst src off) off src.length = src := by
  have ht : (dst.take off).length = off := by simp [List.length_take]; omega
  have hm := slice_mid (dst.take off) src (dst.drop (off + src.length))
  rw [ht] at hm
  unfold listWrite
  exact hm

theorem sliceList_listWrite_before (dst src : List Nat) (off o k : Nat)
    (h1 : o + k ≤ off) (h2 : off ≤ dst.length) :
    sliceList (listWrite dst src off) o k = sliceList dst o k := by
  have ht : (dst.take off).length = off := by simp [List.length_take]; omega
  have hle : o ≤ (dst.take off).length := by omega
  have hlen2 : ((dst.take off).drop o).length = off - o := by
    simp [List.length_drop, ht]
  unfold listWrite sliceList
  rw [List.drop_append_of_le_length hle,
    List.take_append_of_le_length (by omega),
    List.drop_take, List.take_take]
  congr 1
  omega

/-! Facts about the page codec. -/

theorem Page.toBytes_eq (p : Page) (h : p.data.length = PAGE_DATA_SIZE) :
    p.toBytes = natToBeBytes p.id U32_SIZE ++ (natToBeBytes p.free_space_start USIZE_SIZE ++
      (natToBeBytes p.free_space_end USIZE_SIZE ++ p.data)) := by
  have l4 : (natToBeBytes p.id U32_SIZE).length = U32_SIZE := natToBeBytes_length _ _
  have l8 : (natToBeBytes p.free_space_start USIZE_SIZE).length = USIZE_SIZE :=
    natToBeBytes_length _ _
  have l8e : (natToBeBytes p.free_space_end USIZE_SIZE).length = USIZE_SIZE :=
    natToBeBytes_length _ _
  have s1 : listWrite (List.replicate PAGE_SIZE 0) (natToBeBytes p.id U32_SIZE) 0 =
      natToBeBytes p.id U32_SIZE ++ List.replicate (PAGE_SIZE - U32_SIZE) 0 := by
    rw [listWrite_zero, l4, List.drop_replicate]
  have s2 : listWrite (natToBeBytes p.id U32_SIZE ++ List.replicate (PAGE_SIZE - U32_SIZE) 0)
      (natToBeBytes p.free_space_start USIZE_SIZE) U32_SIZE =
      natToBeBytes p.id U32_SIZE ++ (natToBeBytes p.free_space_start USIZE_SIZE ++
        List.replicate (PAGE_SIZE - U32_SIZE - USIZE_SIZE) 0) := by
    have hw := listWrite_at (natToBeBytes p.id U32_SIZE)
      (List.replicate (PAGE_SIZE - U32_SIZE) 0) (natToBeBytes p.free_space_start USIZE_SIZE)
    rw [l4, l8, List.drop_replicate] at hw
    exact hw
  have s3 : listWrite (natToBeBytes p.id U32_SIZE ++
      (natToBeBytes p.free_space_start USIZE_SIZE ++
        List.replicate (PAGE_SIZE - U32_SIZE - USIZE_SIZE) 0))
      (natToBeBytes p.free_space_end USIZE_SIZE) (U32_SIZE + USIZE_SIZE) =
      natToBeBytes p.id U32_SIZE ++ (natToBeBytes p.free_space_start USIZE_SIZE ++
        (natToBeBytes p.free_space_end USIZE_SIZE ++
          List.replicate (PAGE_SIZE - U32_SIZE - USIZE_SIZE - USIZE_SIZE) 0)) := by
    have hw := listWrite_at
      (natToBeBytes p.id U32_SIZE ++ natToBeBytes p.free_space_start USIZE_SIZE)
      (List.replicate (PAGE_SIZE - U32_SIZE - USIZE_SIZE) 0)
      (natToBeBytes p.free_space_end USIZE_SIZE)
    rw [List.length_append, l4, l8, l8e, List.drop_replicate] at hw
    simp only [List.append_assoc] at hw
    exact hw
  have s4 : listWrite (natToBeBytes p.id U32_SIZE ++
      (natToBeBytes p.free_space_start USIZE_SIZE ++
        (natToBeBytes p.free_space_end USIZE_SIZE ++
          List.replicate (PAGE_SIZE - U32_SIZE - USIZE_SIZE - USIZE_SIZE) 0)))
      p.data (U32_SIZE + USIZE_SIZE * 2) =
      natToBeBytes p.id U32_SIZE ++ (natToBeBytes p.free_space_start USIZE_SIZE ++
        (natToBeBytes p.free_space_end USIZE_SIZE ++ p.data)) := by
    have hw := listWrite_at
      (natToBeBytes p.id U32_SIZE ++ (natToBeBytes p.free_space_start USIZE_SIZE ++
        natToBeBytes p.free_space_end USIZE_SIZE))
      (List.replicate (PAGE_SIZE - U32_SIZE - USIZE_SIZE - USIZE_SIZE) 0) p.data
    rw [List.length_append, List.length_append, l4, l8, l8e, h, List.drop_replicate] at hw
    rw [show PAGE_SIZE - U32_SIZE - USIZE_SIZE - USIZE_SIZE - PAGE_DATA_SIZE = 0 by decide,
      List.replicate_zero, List.append_nil] at hw
    rw [show U32_SIZE + (USIZE_SIZE + USIZE_SIZE) = U32_SIZE + USIZE_SIZE * 2 by decide] at hw
    simp only [List.append_assoc] at hw
    exact hw
  show listWrite (listWrite (listWrite (listWrite (List.replicate PAGE_SIZE 0)
    (natToBeBytes p.id U32_SIZE) 0) (natToBeBytes p.free_space_start USIZE_SIZE) U32_SIZE)
    (natToBeBytes p.free_space_end USIZE_SIZE) (U32_SIZE + USIZE_SIZE)) p.data
    (U32_SIZE + USIZE_SIZE * 2) = _
  rw [s1, s2, s3, s4]

theorem Page.toBytes_length (p : Page) (h : p.data.length = PAGE_DATA_SIZE) :
    p.toBytes.length = PAGE_SIZE := by
  rw [Page.toBytes_eq p h]
  simp only [List.length_append, natToBeBytes_length, h]
  decide

theorem Page.fromBytes_parts (i s e : Nat) (d : List Nat) :
    Page.fromBytes (natToBeBytes i U32_SIZE ++ (natToBeBytes s USIZE_SIZE ++
      (natToBeBytes e USIZE_SIZE ++ d))) =
      { id := i % 2 ^ 32, free_space_start := s % 2 ^ 64, free_space_end := e % 2 ^ 64,
        data := d.take PAGE_DATA_SIZE } := by
  have l4 : (natToBeBytes i U32_SIZE).length = U32_SIZE := natToBeBytes_length _ _
  have l8 : (natToBeBytes s USIZE_SIZE).length = USIZE_SIZE := natToBeBytes_length _ _
  have l8e : (natToBeBytes e USIZE_SIZE).length = USIZE_SIZE := natToBeBytes_length _ _
  unfold Page.fromBytes
  congr 1
  · rw [sliceList_front _ _ l4, beBytesToNat_natToBeBytes]
    all_goals norm_num [U32_SIZE]
  · have hm := slice_mid (natToBeBytes i U32_SIZE) (natToBeBytes s USIZE_SIZE)
      (natToBeBytes e USIZE_SIZE ++ d)
    rw [l4, l8] at hm
    rw [hm, beBytesToNat_natToBeBytes]
    all_goals norm_num [USIZE_SIZE]
  · have hm := slice_mid (natToBeBytes i U32_SIZE ++ natToBeBytes s USIZE_SIZE)
      (natToBeBytes e USIZE_SIZE) d
    rw [List.length_append, l4, l8, l8e, List.append_assoc] at hm
    rw [hm, beBytesToNat_natToBeBytes]
    all_goals norm_num [USIZE_SIZE]

theorem Page.fromBytes_toBytes (p : Page) (hd : p.data.length = PAGE_DATA_SIZE)
    (hid : p.id < 2 ^ 32) (hfss : p.free_space_start < 2 ^ 64)
    (hfse : p.free_space_end < 2 ^ 64) :
    Page.fromBytes p.toBytes = p := by
  rw [Page.toBytes_eq p hd, Page.fromBytes_parts,
    Nat.mod_eq_of_lt hid, Nat.mod_eq_of_lt hfss, Nat.mod_eq_of_lt hfse,
    ← hd, List.take_length]

/-! Facts about `Page::add_item`. -/

theorem Page.addItemS_fst_ok (p : Page) (it : Item)
    (h : it.to_page_data.length + USIZE_SIZE * 2 ≤ p.free_space_end - p.free_space_start) :
    (Page.addItemS p it).1 = .ok () := by
  simp only [Page.addItemS]
  rw [if_neg (by omega)]

theorem Page.addItemS_fst_err (p : Page) (it : Item)
    (h : it.to_page_data.length + USIZE_SIZE * 2 > p.free_space_end - p.free_space_start) :
    (Page.addItemS p it).1 = .error PagingError.notEnoughSpace := by
  simp only [Page.addItemS]
  rw [if_pos (by omega)]

theorem Page.addItemS_ok_eq (p : Page) (it : Item)
    (h : it.to_page_data.length + USIZE_SIZE * 2 ≤ p.free_space_end - p.free_space_start) :
    Page.addItemS p it =
      (.ok (),
       { id := p.id,
         free_space_start := p.free_space_start + USIZE_SIZE * 2,
         free_space_end := p.free_space_end - it.to_page_data.length,
         data := listWrite (listWrite (listWrite p.data
           (natToBeBytes (p.free_space_end - it.to_page_data.length) USIZE_SIZE)
             p.free_space_start)
           (natToBeBytes it.to_page_data.length USIZE_SIZE)
             (p.free_space_start + USIZE_SIZE))
           it.to_page_data (p.free_space_end - it.to_page_data.length) }) := by
  simp only [Page.addItemS]
  rw [if_neg (by omega)]

theorem Page.addItemS_id (p : Page) (it : Item) : (Page.addItemS p it).2.id = p.id := by
  simp only [Page.addItemS]
  split <;> rfl

/-- The page states the engine can actually produce: fresh pages from
`Page::new` and the successful results of `Page::add_item`; the pages a
scan reads back are their `from_bytes . to_bytes` images, which the
round-trip theorem identifies with the pages themselves. -/
inductive Page.Reachable : Page → Prop where
  | new : ∀ id, id < 2 ^ 32 → Page.Reachable (Page.new id)
  | add : ∀ (p : Page) (it : Item), Page.Reachable p →
      (Page.addItemS p it).1 = .ok () → Page.Reachable (Page.addItemS p it).2

/-- The structural invariant every reachable page maintains. -/
def pageWf (p : Page) : Prop :=
  p.free_space_start ≤ p.free_space_end ∧ p.free_space_end ≤ PAGE_DATA_SIZE ∧
    p.data.length = PAGE_DATA_SIZE ∧ p.id < 2 ^ 32

theorem pageWf_new (id : Nat) (h : id < 2 ^ 32) : pageWf (Page.new id) := by
  refine ⟨by simp [Page.new], by simp [Page.new], ?_, h⟩
  simp [Page.new]

theorem pageWf_addItemS (p : Page) (it : Item) (hwf : pageWf p)
    (hok : (Page.addItemS p it).1 = .ok ()) : pageWf (Page.addItemS p it).2 := by
  obtain ⟨h1, h2, h3, h4⟩ := hwf
  by_cases hc : it.to_page_data.length + USIZE_SIZE * 2 >
      p.free_space_end - p.free_space_start
  · rw [Page.addItemS_fst_err p it hc] at hok
    exact absurd hok (by simp)
  · push_neg at hc
    rw [Page.addItemS_ok_eq p it hc]
    dsimp only [pageWf]
    have L1 : (listWrite p.data
        (natToBeBytes (p.free_space_end - it.to_page_data.length) USIZE_SIZE)
          p.free_space_start).length = p.data.length :=
      listWrite_length _ _ _ (by rw [natToBeBytes_length]; omega)
    have L2 : (listWrite (listWrite p.data
        (natToBeBytes (p.free_space_end - it.to_page_data.length) USIZE_SIZE)
          p.free_space_start)
        (natToBeBytes it.to_page_data.length USIZE_SIZE)
          (p.free_space_start + USIZE_SIZE)).length = p.data.length := by
      rw [listWrite_length _ _ _ (by rw [natToBeBytes_length, L1]; omega), L1]
    refine ⟨by omega, by omega, ?_, h4⟩
    rw [listWrite_length _ _ _ (by rw [L2]; omega), L2, h3]

theorem Page.reachable_wf {p : Page} (h : Page.Reachable p) : pageWf p := by
  induction h with
  | new id hid => exact pageWf_new id hid
  | add p it _ hok ih => exact pageWf_addItemS p it ih hok

/-! Facts about the slot directory walk. -/

theorem itemSlotsGo_stop (data : List Nat) (fss cur fuel : Nat) (h : ¬ cur < fss) :
    itemSlotsGo data fss cur fuel = [] := by
  cases fuel <;> simp [itemSlotsGo, h]

theorem itemSlotsGo_succ (data : List Nat) (fss cur fuel : Nat) :
    itemSlotsGo data fss cur (fuel + 1) =
      if cur < fss then
        (beBytesToNat (sliceList data cur USIZE_SIZE),
         beBytesToNat (sliceList data (cur + USIZE_SIZE) USIZE_SIZE)) ::
          itemSlotsGo data fss (cur + 2 * USIZE_SIZE) fuel
      else [] := rfl

theorem Page.itemSlots_pair (p : Page) (off size : Nat) (rest : List Nat)
    (hd : p.data = natToBeBytes off USIZE_SIZE ++ (natToBeBytes size USIZE_SIZE ++ rest))
    (hf : p.free_space_start = USIZE_SIZE * 2)
    (ho : off < 2 ^ 64) (hs : size < 2 ^ 64) :
    p.itemSlots = [(off, size)] := by
  unfold Page.itemSlots
  rw [hf, show USIZE_SIZE * 2 + 1 = 16 + 1 from by decide, itemSlotsGo_succ,
    if_pos (by decide)]
  rw [itemSlotsGo_stop _ _ _ _ (by decide), Nat.zero_add]
  have hm := slice_mid (natToBeBytes off USIZE_SIZE) (natToBeBytes size USIZE_SIZE) rest
  rw [natToBeBytes_length, natToBeBytes_length] at hm
  rw [hd, sliceList_front _ _ (natToBeBytes_length off USIZE_SIZE), hm,
    beBytesToNat_natToBeBytes_of_lt
      (lt_of_lt_of_le ho (by rw [show (2:Nat) ^ 64 = 256 ^ USIZE_SIZE from by decide])),
    beBytesToNat_natToBeBytes_of_lt
      (lt_of_lt_of_le hs (by rw [show (2:Nat) ^ 64 = 256 ^ USIZE_SIZE from by decide]))]

theorem Page.get_items_single (p : Page) (off size : Nat)
    (h : p.itemSlots = [(off, size)]) :
    p.get_items = [Item.from_page_data (sliceList p.data off size)] := by
  unfold Page.get_items
  rw [h]
  rfl

/-! Facts about the page streaming loops of fs.rs. -/

theorem readPage_full (file : List Nat) (h : file.length = PAGE_SIZE) :
    readPage file 0 = file := by
  unfold readPage sliceList
  rw [List.drop_zero, List.take_of_length_le (by omega)]
  dsimp only
  rw [h, Nat.sub_self, List.replicate_zero, List.append_nil]

theorem readPage_at (file : List Nat) (off : Nat) (h : file.length = off + PAGE_SIZE) :
    readPage file off = file.drop off := by
  unfold readPage sliceList
  have hl : (file.drop off).length = PAGE_SIZE := by simp [List.length_drop]; omega
  rw [List.take_of_length_le (by omega)]
  dsimp only
  rw [hl, Nat.sub_self, List.replicate_zero, List.append_nil]

theorem scanPagesGo_nil (fuel : Nat) : scanPagesGo [] fuel = [] := by
  cases fuel <;> simp [scanPagesGo]

theorem scanPagesGo_succ (file : List Nat) (fuel : Nat) :
    scanPagesGo file (fuel + 1) =
      if file.isEmpty then []
      else Page.fromBytes (readPage file 0) :: scanPagesGo (file.drop PAGE_SIZE) fuel := rfl

theorem isEmpty_false_of_length {l : List Nat} {n : Nat} (hn : n ≠ 0)
    (h : l.length = n) : l.isEmpty = false := by
  cases l with
  | nil => exact absurd h.symm hn
  | cons a as => rfl

theorem scanPages_single (file : List Nat) (h : file.length = PAGE_SIZE) :
    scanPages file = [Page.fromBytes file] := by
  unfold scanPages
  rw [h, show PAGE_SIZE = 8191 + 1 from by decide, scanPagesGo_succ,
    isEmpty_false_of_length (by decide) h]
  rw [if_neg (by simp), readPage_full file h,
    List.drop_eq_nil_of_le (le_of_eq h), scanPagesGo_nil]

theorem selectGo_single (t : Table) (it : Item) :
    selectGo t none [it] = .ok [it.to_record t] := rfl

theorem selectRecords_single (t : Table) (cols : List String) (p : Page) (it : Item)
    (hd : p.data.length = PAGE_DATA_SIZE) (hid : p.id < 2 ^ 32)
    (hfss : p.free_space_start < 2 ^ 64) (hfse : p.free_space_end < 2 ^ 64)
    (hitems : p.get_items = [it]) :
    selectRecords t cols none p.toBytes = .ok [it.to_record t] := by
  unfold selectRecords
  rw [scanPages_single _ (Page.toBytes_length p hd),
    Page.fromBytes_toBytes p hd hid hfss hfse]
  simp only [List.map_cons, List.map_nil, hitems]
  rfl

theorem updateGo_none (t : Table) (items : List Item) :
    updateGo t none items = .ok () := by
  induction items with
  | nil => rfl
  | cons it its ih =>
    simp only [updateGo]
    exact ih

theorem updateRecords_none (t : Table) (vals : List ColumnValue) (file : List Nat) :
    updateRecords t vals none file = .ok file := by
  unfold updateRecords
  rw [updateGo_none]
  rfl

theorem writeAt_nil (src : List Nat) : writeAt [] 0 src = src := by
  simp [writeAt]

theorem writeAt_append (file src : List Nat) :
    writeAt file file.length src = file ++ src := by
  unfold writeAt
  rw [List.take_length, List.drop_eq_nil_of_le (by omega), List.append_nil]

theorem insertRecordFile_nil (r : Record)
    (hfit : (Item.from_record r).to_page_data.length + USIZE_SIZE * 2 ≤ PAGE_DATA_SIZE) :
    insertRecordFile r [] = .ok (Page.addItemS (Page.new 1) (Item.from_record r)).2.toBytes := by
  have hok : (Page.addItemS (Page.new 1) (Item.from_record r)).1 = .ok () :=
    Page.addItemS_fst_ok _ _ (by simp [Page.new]; omega)
  unfold insertRecordFile
  rcases hpair : Page.addItemS (Page.new 1) (Item.from_record r) with ⟨res, p2⟩
  rw [hpair] at hok
  simp only at hok
  subst hok
  simp only [List.length_nil, Nat.zero_div, Nat.lt_irrefl, if_false, hpair, writeAt_nil]

/-! The item round trip (claim C1): matching records survive
`from_record` followed by `to_record`. -/

/-- The compatibility relation of the spec data model: the value at a
position either has the column's type or is null. -/
def typeMatches : Value → ColType → Bool
  | .null, _ => true
  | .str _, .str => true
  | .bool _, .bool => true
  | .int _, .int => true
  | .float _, .float => true
  | _, _ => false

/-- A record matches a schema when it has one matching value per column. -/
def valuesMatch : List Value → List Column → Bool
  | [], [] => true
  | v :: vs, c :: cs => typeMatches v c.column_type && valuesMatch vs cs
  | _, _ => false

/-- The range invariants the Rust types impose on a value: `i32` payloads
lie in the i32 range, `f32` bit patterns are 32-bit, string lengths fit a
`usize`. -/
def wfValue : Value → Bool
  | .int i => decide (-(2 ^ 31) ≤ i) && decide (i < 2 ^ 31)
  | .float w => decide (w < 2 ^ 32)
  | .str s => decide (s.length < 2 ^ 64)
  | _ => true

theorem getD_append_cons (pre : List Bool) (x : Bool) (l : List Bool) (d : Bool) :
    (pre ++ x :: l).getD pre.length d = x := by
  induction pre with
  | nil => rfl
  | cons a as ih => simpa using ih

theorem decode_encode_int (i : Int) (h1 : -(2 ^ 31) ≤ i) (h2 : i < 2 ^ 31) :
    Value.from_be_bytes (encodeValue (Value.int i)) ColType.int = Value.int i := by
  have e32 : ((2 : Int) ^ 32) = 4294967296 := by norm_num
  have hnn : (0 : Int) ≤ i % 2 ^ 32 := Int.emod_nonneg i (by norm_num)
  have hlt : i % 2 ^ 32 < 2 ^ 32 := Int.emod_lt_of_pos i (by norm_num)
  have hm : (i % (2 : Int) ^ 32).toNat < 256 ^ U32_SIZE := by
    rw [show (256 : Nat) ^ U32_SIZE = 4294967296 from by decide]
    rw [e32] at hlt
    omega
  simp only [encodeValue, Value.from_be_bytes]
  rw [List.take_of_length_le (by rw [natToBeBytes_length]; decide),
    beBytesToNat_natToBeBytes_of_lt hm]
  rw [e32] at hnn hlt
  have h31 : ((2 : Int) ^ 31) = 2147483648 := by norm_num
  rw [h31] at h1 h2
  split
  · congr 1
    next hc =>
      rw [show (2 : Nat) ^ 31 = 2147483648 from by decide] at hc
      omega
  · congr 1
    next hc =>
      rw [show (2 : Nat) ^ 31 = 2147483648 from by decide] at hc
      rw [show ((2 : Int) ^ 32) = 4294967296 from by norm_num]
      omega

theorem decode_encode_float (w : Nat) (h : w < 2 ^ 32) :
    Value.from_be_bytes (encodeValue (Value.float w)) ColType.float = Value.float w := by
  simp only [encodeValue, Value.from_be_bytes]
  rw [List.take_of_length_le (by rw [natToBeBytes_length]; decide),
    beBytesToNat_natToBeBytes_of_lt
      (lt_of_lt_of_le h (by rw [show (2:Nat) ^ 32 = 256 ^ U32_SIZE from by decide]))]

theorem decode_encode_bool (b : Bool) :
    Value.from_be_bytes (encodeValue (Value.bool b)) ColType.bool = Value.bool b := by
  cases b <;> rfl

theorem toRecordGo_of_encoded :
    ∀ (vs : List Value) (cs : List Column) (preB : List Bool) (preD : List Nat),
    valuesMatch vs cs = true → vs.all wfValue = true →
    toRecordGo (preB ++ vs.map Value.isNull) (preD ++ (vs.map encodeValue).flatten)
      cs preB.length preD.length = vs := by
  intro vs
  induction vs with
  | nil =>
    intro cs preB preD hm _
    cases cs with
    | nil => simp [toRecordGo]
    | cons c cs' => simp [valuesMatch] at hm
  | cons v vs ih =>
    intro cs preB preD hm hwf
    cases cs with
    | nil => simp [valuesMatch] at hm
    | cons c cs' =>
      rw [valuesMatch, Bool.and_eq_true] at hm
      obtain ⟨hm1, hm2⟩ := hm
      rw [List.all_cons, Bool.and_eq_true] at hwf
      obtain ⟨hwf1, hwf2⟩ := hwf
      cases v with
      | null =>
        simp only [List.map_cons, List.flatten_cons, toRecordGo]
        rw [show Value.isNull Value.null = true from rfl, getD_append_cons, if_pos rfl]
        congr 1
        have e1 : preB ++ true :: vs.map Value.isNull =
            (preB ++ [true]) ++ vs.map Value.isNull := by simp
        have e2 : preB.length + 1 = (preB ++ [true]).length := by simp
        rw [show encodeValue Value.null = [] from rfl, List.nil_append, e1, e2]
        exact ih cs' (preB ++ [true]) preD hm2 hwf2
      | int i =>
        cases hct : c.column_type <;> rw [hct] at hm1 <;>
          simp [typeMatches] at hm1
        simp only [List.map_cons, List.flatten_cons, toRecordGo, hct]
        rw [show Value.isNull (Value.int i) = false from rfl, getD_append_cons]
        simp only [Bool.false_eq_true, if_false]
        have hsl : sliceList (preD ++ (encodeValue (Value.int i) ++
            (vs.map encodeValue).flatten)) preD.length 4 = encodeValue (Value.int i) := by
          have := slice_mid preD (encodeValue (Value.int i)) (vs.map encodeValue).flatten
          rwa [show (encodeValue (Value.int i)).length = 4 from
            by rw [encodeValue, natToBeBytes_length]; decide] at this
        rw [hsl]
        simp only [wfValue, Bool.and_eq_true, decide_eq_true_eq] at hwf1
        rw [decode_encode_int i hwf1.1 hwf1.2]
        congr 1
        have e1 : preB ++ false :: vs.map Value.isNull =
            (preB ++ [false]) ++ vs.map Value.isNull := by simp
        have e2 : preB.length + 1 = (preB ++ [false]).length := by simp
        have e3 : preD ++ (encodeValue (Value.int i) ++ (vs.map encodeValue).flatten) =
            (preD ++ encodeValue (Value.int i)) ++ (vs.map encodeValue).flatten := by simp
        have e4 : preD.length + 4 = (preD ++ encodeValue (Value.int i)).length := by
          rw [List.length_append, encodeValue, natToBeBytes_length]; rfl
        rw [e1, e2, e3, e4]
        exact ih cs' (preB ++ [false]) (preD ++ encodeValue (Value.int i)) hm2 hwf2
      | float w =>
        cases hct : c.column_type <;> rw [hct] at hm1 <;>
          simp [typeMatches] at hm1
        simp only [List.map_cons, List.flatten_cons, toRecordGo, hct]
        rw [show Value.isNull (Value.float w) = false from rfl, getD_append_cons]
        simp only [Bool.false_eq_true, if_false]
        have hsl : sliceList (preD ++ (encodeValue (Value.float w) ++
            (vs.map encodeValue).flatten)) preD.length 4 = encodeValue (Value.float w) := by
          have := slice_mid preD (encodeValue (Value.float w)) (vs.map encodeValue).flatten
          rwa [show (encodeValue (Value.float w)).length = 4 from
            by rw [encodeValue, natToBeBytes_length]; decide] at this
        rw [hsl]
        simp only [wfValue, decide_eq_true_eq] at hwf1
        rw [decode_encode_float w hwf1]
        congr 1
        have e1 : preB ++ false :: vs.map Value.isNull =
            (preB ++ [false]) ++ vs.map Value.isNull := by simp
        have e2 : preB.length + 1 = (preB ++ [false]).length := by simp
        have e3 : preD ++ (encodeValue (Value.float w) ++ (vs.map encodeValue).flatten) =
            (preD ++ encodeValue (Value.float w)) ++ (vs.map encodeValue).flatten := by simp
        have e4 : preD.length + 4 = (preD ++ encodeValue (Value.float w)).length := by
          rw [List.length_append, encodeValue, natToBeBytes_length]; rfl
        rw [e1, e2, e3, e4]
        exact ih cs' (preB ++ [false]) (preD ++ encodeValue (Value.float w)) hm2 hwf2
      | bool b =>
        cases hct : c.column_type <;> rw [hct] at hm1 <;>
          simp [typeMatches] at hm1
        simp only [List.map_cons, List.flatten_cons, toRecordGo, hct]
        rw [show Value.isNull (Value.bool b) = false from rfl, getD_append_cons]
        simp only [Bool.false_eq_true, if_false]
        have hsl : sliceList (preD ++ (encodeValue (Value.bool b) ++
            (vs.map encodeValue).flatten)) preD.length 1 = encodeValue (Value.bool b) := by
          have := slice_mid preD (encodeValue (Value.bool b)) (vs.map encodeValue).flatten
          rwa [show (encodeValue (Value.bool b)).length = 1 from by cases b <;> rfl] at this
        rw [hsl, decode_encode_bool b]
        congr 1
        have e1 : preB ++ false :: vs.map Value.isNull =
            (preB ++ [false]) ++ vs.map Value.isNull := by simp
        have e2 : preB.length + 1 = (preB ++ [false]).length := by simp
        have e3 : preD ++ (encodeValue (Value.bool b) ++ (vs.map encodeValue).flatten) =
            (preD ++ encodeValue (Value.bool b)) ++ (vs.map encodeValue).flatten := by simp
        have e4 : preD.length + 1 = (preD ++ encodeValue (Value.bool b)).length := by
          rw [List.length_append, show (encodeValue (Value.bool b)).length = 1 from
            by cases b <;> rfl]
        rw [e1, e2, e3, e4]
        exact ih cs' (preB ++ [false]) (preD ++ encodeValue (Value.bool b)) hm2 hwf2
      | str sbytes =>
        cases hct : c.column_type <;> rw [hct] at hm1 <;>
          simp [typeMatches] at hm1
        simp only [List.map_cons, List.flatten_cons, toRecordGo, hct]
        rw [show Value.isNull (Value.str sbytes) = false from rfl, getD_append_cons]
        simp only [Bool.false_eq_true, if_false]
        simp only [wfValue, decide_eq_true_eq] at hwf1
        have henc : encodeValue (Value.str sbytes) =
            natToBeBytes sbytes.length USIZE_SIZE ++ sbytes := rfl
        have hsl : sliceList (preD ++ (encodeValue (Value.str sbytes) ++
            (vs.map encodeValue).flatten)) preD.length USIZE_SIZE =
            natToBeBytes sbytes.length USIZE_SIZE := by
          have := slice_mid preD (natToBeBytes sbytes.length USIZE_SIZE)
            (sbytes ++ (vs.map encodeValue).flatten)
          rw [natToBeBytes_length] at this
          rwa [henc, List.append_assoc]
        rw [hsl, beBytesToNat_natToBeBytes_of_lt
          (lt_of_lt_of_le hwf1 (by rw [show (2:Nat) ^ 64 = 256 ^ USIZE_SIZE from by decide]))]
        have hsl2 : sliceList (preD ++ (encodeValue (Value.str sbytes) ++
            (vs.map encodeValue).flatten)) (preD.length + USIZE_SIZE) sbytes.length =
            sbytes := by
          have hmid := slice_mid (preD ++ natToBeBytes sbytes.length USIZE_SIZE) sbytes
            (vs.map encodeValue).flatten
          rw [List.length_append, natToBeBytes_length] at hmid
          simp only [List.append_assoc] at hmid
          rw [henc, List.append_assoc]
          exact hmid
        rw [hsl2, show Value.from_be_bytes sbytes ColType.str = Value.str sbytes from rfl]
        congr 1
        have e1 : preB ++ false :: vs.map Value.isNull =
            (preB ++ [false]) ++ vs.map Value.isNull := by simp
        have e2 : preB.length + 1 = (preB ++ [false]).length := by simp
        have e3 : preD ++ (encodeValue (Value.str sbytes) ++ (vs.map encodeValue).flatten) =
            (preD ++ encodeValue (Value.str sbytes)) ++ (vs.map encodeValue).flatten := by
          simp
        have e4 : preD.length + USIZE_SIZE + sbytes.length =
            (preD ++ encodeValue (Value.str sbytes)).length := by
          rw [List.length_append, henc, List.length_append, natToBeBytes_length]
          omega
        rw [e1, e2, e3, e4]
        exact ih cs' (preB ++ [false]) (preD ++ encodeValue (Value.str sbytes)) hm2 hwf2

theorem item_roundtrip (t : Table) (r : Record)
    (hm : valuesMatch r.values t.columns = true)
    (hwf : r.values.all wfValue = true) :
    (Item.from_record r).to_record t = r := by
  unfold Item.to_record Item.from_record
  have := toRecordGo_of_encoded r.values t.columns [] [] hm hwf
  simp only [List.nil_append, List.length_nil] at this
  cases r
  simp only at this ⊢
  rw [this]

/-! Shape predicates and shared unfolding lemmas used by the claims. -/

/-- Whether a fallible evaluation succeeded with a `Float` result. -/
def isOkFloatB : Except QueryError Value → Bool
  | .ok (.float _) => true
  | _ => false

/-- Whether a fallible evaluation succeeded with an `Int` result. -/
def isOkIntB : Except QueryError Value → Bool
  | .ok (.int _) => true
  | _ => false

/-- Whether a divisor value is a numeric zero under the tests the source's
`Div` implementation performs: integer `== 0`, or IEEE `== 0.0` for a
float (which holds exactly for the two zero bit patterns). -/
def divisorIsZero : Value → Bool
  | .int n => n == 0
  | .float z => f32beq z 0
  | _ => false

/-- Whether a value is of a numeric variant. -/
def isNumericValue : Value → Bool
  | .int _ => true
  | .float _ => true
  | _ => false

/-- Whether a value is of the `Str` variant. -/
def isStrValue : Value → Bool
  | .str _ => true
  | _ => false

/-- Whether a value is of the `Bool` variant. -/
def isBoolValue : Value → Bool
  | .bool _ => true
  | _ => false

/-- Whether a comparator is `=` or `≠`. -/
def isEqOrNeq : Comparator → Bool
  | .eq => true
  | .neq => true
  | _ => false

/-- Whether a comparator is `≠`. -/
def isNeqC : Comparator → Bool
  | .neq => true
  | _ => false

/-- The operand combinations on which the spec declares comparison
defined: like-typed numerics (with promotion), strings with strings, and
booleans with booleans for `=`/`≠` only. -/
def validCompCombo (v1 v2 : Value) (c : Comparator) : Bool :=
  (isNumericValue v1 && isNumericValue v2) || (isStrValue v1 && isStrValue v2) ||
    (isBoolValue v1 && isBoolValue v2 && isEqOrNeq c)

theorem evaluate_comp_eq (e1 e2 : Expression) (c : Comparator)
    (env : Option (List (String × Value))) (v1 v2 : Value)
    (he1 : evaluate e1 env = .ok v1) (he2 : evaluate e2 env = .ok v2) :
    evaluate (.comp e1 c e2) env = .ok (Value.bool (compValues c v1 v2)) := by
  simp only [evaluate, he1, he2]
  rfl

theorem evaluate_op_eq (e1 e2 : Expression) (o : Operator)
    (env : Option (List (String × Value))) (v1 v2 : Value)
    (he1 : evaluate e1 env = .ok v1) (he2 : evaluate e2 env = .ok v2) :
    evaluate (.op e1 o e2) env =
      (match o with
       | .add => Value.add v1 v2
       | .subtract => Value.sub v1 v2
       | .multiply => Value.mul v1 v2
       | .divide => Value.div v1 v2) := by
  simp only [evaluate, he1, he2]
  rfl

theorem Page.addItemS_new_eq (k : Nat) (it : Item)
    (hfit : it.to_page_data.length + USIZE_SIZE * 2 ≤ PAGE_DATA_SIZE) :
    Page.addItemS (Page.new k) it =
      (.ok (),
       { id := k,
         free_space_start := USIZE_SIZE * 2,
         free_space_end := PAGE_DATA_SIZE - it.to_page_data.length,
         data := natToBeBytes (PAGE_DATA_SIZE - it.to_page_data.length) USIZE_SIZE ++
           (natToBeBytes it.to_page_data.length USIZE_SIZE ++
             (List.replicate (PAGE_DATA_SIZE - it.to_page_data.length - USIZE_SIZE * 2) 0 ++
               it.to_page_data)) }) := by
  have hpds : PAGE_DATA_SIZE = 8172 := by decide
  rw [Page.addItemS_ok_eq _ _ (by simp [Page.new]; omega)]
  simp only [Page.new]
  have s1 : listWrite (List.replicate PAGE_DATA_SIZE 0)
      (natToBeBytes (PAGE_DATA_SIZE - it.to_page_data.length) USIZE_SIZE) 0 =
      natToBeBytes (PAGE_DATA_SIZE - it.to_page_data.length) USIZE_SIZE ++
        List.replicate (PAGE_DATA_SIZE - USIZE_SIZE) 0 := by
    rw [listWrite_zero, natToBeBytes_length, List.drop_replicate]
  have s2 : listWrite (natToBeBytes (PAGE_DATA_SIZE - it.to_page_data.length) USIZE_SIZE ++
      List.replicate (PAGE_DATA_SIZE - USIZE_SIZE) 0)
      (natToBeBytes it.to_page_data.length USIZE_SIZE) (0 + USIZE_SIZE) =
      natToBeBytes (PAGE_DATA_SIZE - it.to_page_data.length) USIZE_SIZE ++
        (natToBeBytes it.to_page_data.length USIZE_SIZE ++
          List.replicate (PAGE_DATA_SIZE - USIZE_SIZE - USIZE_SIZE) 0) := by
    have hw := listWrite_at (natToBeBytes (PAGE_DATA_SIZE - it.to_page_data.length) USIZE_SIZE)
      (List.replicate (PAGE_DATA_SIZE - USIZE_SIZE) 0)
      (natToBeBytes it.to_page_data.length USIZE_SIZE)
    rw [natToBeBytes_length, natToBeBytes_length, List.drop_replicate] at hw
    rw [Nat.zero_add]
    exact hw
  have hsplit : List.replicate (PAGE_DATA_SIZE - USIZE_SIZE - USIZE_SIZE) (0:Nat) =
      List.replicate (PAGE_DATA_SIZE - it.to_page_data.length - USIZE_SIZE * 2) 0 ++
        List.replicate it.to_page_data.length 0 := by
    rw [← List.replicate_add]
    congr 1
    omega
  have hpre : (natToBeBytes (PAGE_DATA_SIZE - it.to_page_data.length) USIZE_SIZE ++
      (natToBeBytes it.to_page_data.length USIZE_SIZE ++
        List.replicate (PAGE_DATA_SIZE - it.to_page_data.length - USIZE_SIZE * 2) 0)).length =
      PAGE_DATA_SIZE - it.to_page_data.length := by
    simp [natToBeBytes_length]
    omega
  have s3 : listWrite (natToBeBytes (PAGE_DATA_SIZE - it.to_page_data.length) USIZE_SIZE ++
      (natToBeBytes it.to_page_data.length USIZE_SIZE ++
        List.replicate (PAGE_DATA_SIZE - USIZE_SIZE - USIZE_SIZE) 0))
      it.to_page_data (PAGE_DATA_SIZE - it.to_page_data.length) =
      natToBeBytes (PAGE_DATA_SIZE - it.to_page_data.length) USIZE_SIZE ++
        (natToBeBytes it.to_page_data.length USIZE_SIZE ++
          (List.replicate (PAGE_DATA_SIZE - it.to_page_data.length - USIZE_SIZE * 2) 0 ++
            it.to_page_data)) := by
    have hw := listWrite_at
      (natToBeBytes (PAGE_DATA_SIZE - it.to_page_data.length) USIZE_SIZE ++
        (natToBeBytes it.to_page_data.length USIZE_SIZE ++
          List.replicate (PAGE_DATA_SIZE - it.to_page_data.length - USIZE_SIZE * 2) 0))
      (List.replicate it.to_page_data.length 0) it.to_page_data
    rw [hpre, List.drop_replicate, Nat.sub_self, List.replicate_zero,
      List.append_nil] at hw
    simp only [List.append_assoc] at hw
    rw [hsplit, show (natToBeBytes (PAGE_DATA_SIZE - it.to_page_data.length) USIZE_SIZE ++
        (natToBeBytes it.to_page_data.length USIZE_SIZE ++
          (List.replicate (PAGE_DATA_SIZE - it.to_page_data.length - USIZE_SIZE * 2) 0 ++
            List.replicate it.to_page_data.length 0))) =
        (natToBeBytes (PAGE_DATA_SIZE - it.to_page_data.length) USIZE_SIZE ++
          (natToBeBytes it.to_page_data.length USIZE_SIZE ++
            List.replicate (PAGE_DATA_SIZE - it.to_page_data.length - USIZE_SIZE * 2) 0)) ++
          List.replicate it.to_page_data.length 0 from by simp]
    exact hw
  rw [s1, s2, s3, Nat.zero_add]

theorem select_after_single_add (t : Table) (cols : List String) (it : Item) (sz : Nat)
    (hsz : it.to_page_data.length = sz)
    (hfit : sz + USIZE_SIZE * 2 ≤ PAGE_DATA_SIZE) :
    selectRecords t cols none (Page.addItemS (Page.new 1) it).2.toBytes =
      .ok [(Item.from_page_data it.to_page_data).to_record t] := by
  have hpds : PAGE_DATA_SIZE = 8172 := by decide
  have husz : USIZE_SIZE = 8 := by decide
  have hP : (Page.addItemS (Page.new 1) it).2 =
      { id := 1,
        free_space_start := USIZE_SIZE * 2,
        free_space_end := PAGE_DATA_SIZE - sz,
        data := natToBeBytes (PAGE_DATA_SIZE - sz) USIZE_SIZE ++
          (natToBeBytes sz USIZE_SIZE ++
            (List.replicate (PAGE_DATA_SIZE - sz - USIZE_SIZE * 2) 0 ++
              it.to_page_data)) } := by
    rw [Page.addItemS_new_eq 1 it (by omega), hsz]
  have hdlen : (Page.addItemS (Page.new 1) it).2.data.length = PAGE_DATA_SIZE := by
    rw [hP]
    simp [natToBeBytes_length, hsz]
    omega
  have hslots : (Page.addItemS (Page.new 1) it).2.itemSlots =
      [(PAGE_DATA_SIZE - sz, sz)] := by
    apply Page.itemSlots_pair _ _ _
      (List.replicate (PAGE_DATA_SIZE - sz - USIZE_SIZE * 2) 0 ++ it.to_page_data)
    · rw [hP]
    · rw [hP]
    · omega
    · omega
  have hpre : (natToBeBytes (PAGE_DATA_SIZE - sz) USIZE_SIZE ++
      (natToBeBytes sz USIZE_SIZE ++
        List.replicate (PAGE_DATA_SIZE - sz - USIZE_SIZE * 2) 0)).length =
      PAGE_DATA_SIZE - sz := by
    simp [natToBeBytes_length]
    omega
  have hslice : sliceList (Page.addItemS (Page.new 1) it).2.data
      (PAGE_DATA_SIZE - sz) sz = it.to_page_data := by
    have hs := sliceList_suffix (natToBeBytes (PAGE_DATA_SIZE - sz) USIZE_SIZE ++
      (natToBeBytes sz USIZE_SIZE ++
        List.replicate (PAGE_DATA_SIZE - sz - USIZE_SIZE * 2) 0)) it.to_page_data hsz
    rw [hpre] at hs
    simp only [List.append_assoc] at hs
    rw [hP]
    exact hs
  have hitems : (Page.addItemS (Page.new 1) it).2.get_items =
      [Item.from_page_data it.to_page_data] := by
    rw [Page.get_items_single _ _ _ hslots, hslice]
  exact selectRecords_single t cols _ _ hdlen
    (by rw [hP]; show (1 : Nat) < 2 ^ 32; decide)
    (by rw [hP]; show USIZE_SIZE * 2 < 2 ^ 64; decide)
    (by rw [hP]; show PAGE_DATA_SIZE - sz < 2 ^ 64; omega) hitems

/-! Every record `Item::to_record` builds has exactly one value per schema
column, whatever the projection list says. -/

theorem toRecordGo_length (nm : List Bool) (fd : List Nat) :
    ∀ (cs : List Column) (idx off : Nat),
      (toRecordGo nm fd cs idx off).length = cs.length := by
  intro cs
  induction cs with
  | nil => intro idx off; rfl
  | cons c cs ih =>
    intro idx off
    simp only [toRecordGo]
    split
    · simp [ih]
    · cases c.column_type <;> simp [ih]

theorem to_record_length (it : Item) (t : Table) :
    (it.to_record t).values.length = t.columns.length := by
  unfold Item.to_record
  exact toRecordGo_length _ _ _ _ _

theorem selectGo_mem_length (t : Table) (cond : Option Expression) :
    ∀ (items : List Item) (rs : List Record), selectGo t cond items = .ok rs →
      ∀ r ∈ rs, r.values.length = t.columns.length := by
  intro items
  induction items with
  | nil =>
    intro rs h r hr
    simp only [selectGo] at h
    cases h
    simp at hr
  | cons it its ih =>
    intro rs h r hr
    simp only [selectGo] at h
    cases hK : keepRecord t cond (it.to_record t) with
    | error e =>
      rw [hK] at h
      simp [Bind.bind, Except.bind] at h
    | ok keep =>
      rw [hK] at h
      cases hrest : selectGo t cond its with
      | error e =>
        rw [hrest] at h
        simp [Bind.bind, Except.bind] at h
      | ok rest =>
        rw [hrest] at h
        simp only [Bind.bind, Except.bind, pure, Except.pure] at h
        cases h
        cases keep with
        | true =>
          simp at hr
          rcases hr with hr1 | hr2
          · rw [hr1]
            exact to_record_length it t
          · exact ih rest hrest r hr2
        | false =>
          simp at hr
          exact ih rest hrest r hr

/-! Concrete demonstration data used by the claims about the table file
engine. -/

/-- A one-int-column table `n(x int)`. -/
def demoTable1 : Table := { name := "n", columns := [{ name := "x", column_type := ColType.int }] }

/-- The record `(1)` for `demoTable1`. -/
def demoRecord1 : Record := { values := [Value.int 1] }

/-- The table file produced by inserting `demoRecord1` into an empty file. -/
def demoFile1 : List Nat :=
  (Page.addItemS (Page.new 1) (Item.from_record demoRecord1)).2.toBytes

/-- A two-column table `t(id int, name str)`. -/
def demoTable2 : Table :=
  { name := "t",
    columns := [{ name := "id", column_type := ColType.int },
                { name := "name", column_type := ColType.str }] }

/-- The record `(1, "a")` for `demoTable2` (the string as its UTF-8 byte 97). -/
def demoRecord2 : Record := { values := [Value.int 1, Value.str [97]] }

/-- The table file produced by inserting `demoRecord2` into an empty file. -/
def demoFile2 : List Nat :=
  (Page.addItemS (Page.new 1) (Item.from_record demoRecord2)).2.toBytes

/-- A file holding a single serialized page whose free-space window
`[8160, 8170)` is too small for any further item. -/
def demoFullPageFile : List Nat :=
  natToBeBytes 1 U32_SIZE ++ (natToBeBytes 8160 USIZE_SIZE ++
    (natToBeBytes 8170 USIZE_SIZE ++ List.replicate PAGE_DATA_SIZE 0))

theorem demoFullPageFile_read :
    Page.fromBytes (readPage demoFullPageFile 0) =
      { id := 1, free_space_start := 8160, free_space_end := 8170,
        data := List.replicate PAGE_DATA_SIZE 0 } := by
  have hlen : demoFullPageFile.length = PAGE_SIZE := by
    rw [demoFullPageFile]
    simp only [List.length_append, natToBeBytes_length, List.length_replicate]
    decide
  rw [readPage_full _ hlen, demoFullPageFile, Page.fromBytes_parts,
    List.take_of_length_le (le_of_eq (List.length_replicate _ _))]
  congr 1

/-! The ten claims. -/

/-- C1: for every table schema S and every record R whose values match S
(the value at position i has the type of column i, or is null), encoding R
as an item and decoding it back with S yields R:
`to_record(from_record(R), S) = R`.  The well-formedness hypothesis states
the range invariants the Rust value types impose (i32 payloads, 32-bit
float patterns, usize string lengths). -/
theorem claim_C1_item_record_roundtrip (t : Table) (r : Record)
    (hm : valuesMatch r.values t.columns = true)
    (hwf : r.values.all wfValue = true) :
    (Item.from_record r).to_record t = r :=
  item_roundtrip t r hm hwf

/-- Witness for C1 at the concrete schema `(id int, name str)` and record
`(5, null)`. -/
theorem claim_C1_witness :
    valuesMatch [Value.int 5, Value.null]
      [{ name := "id", column_type := ColType.int },
       { name := "name", column_type := ColType.str }] = true ∧
    (Item.from_record { values := [Value.int 5, Value.null] }).to_record
      { name := "t", columns := [{ name := "id", column_type := ColType.int },
                                 { name := "name", column_type := ColType.str }] } =
      { values := [Value.int 5, Value.null] } :=
  ⟨by decide, claim_C1_item_record_roundtrip _ _ (by decide) (by decide)⟩

/-- C2: the claim says update re-encodes matched records and writes them
back so a later scan sees the new values.  The source's `update_records`
mutates only a local copy and never writes a page, so the file is
unchanged and a subsequent scan still returns the old record: after
inserting `(1)` and running `UPDATE` setting `x = 2` with no condition,
the scan still yields `(1)`. -/
theorem claim_C2_update_never_written :
    insertRecordFile demoRecord1 [] = .ok demoFile1 ∧
    updateRecords demoTable1 [{ column := "x", value := Value.int 2 }] none demoFile1 =
      .ok demoFile1 ∧
    selectRecords demoTable1 ["x"] none demoFile1 = .ok [demoRecord1] := by
  refine ⟨insertRecordFile_nil demoRecord1 (by decide), updateRecords_none _ _ _, ?_⟩
  rw [show demoFile1 =
    (Page.addItemS (Page.new 1) (Item.from_record demoRecord1)).2.toBytes from rfl]
  rw [select_after_single_add demoTable1 ["x"] (Item.from_record demoRecord1) 13
    (by decide) (by decide)]
  decide

/-- C3 counterexample: a division whose divisor evaluates to integer zero
but whose dividend is a Float succeeds (yielding +infinity) instead of
returning a ValidationError, because the zero check exists only in the
Int-dividend arm of the source's `Div`. -/
theorem claim_C3_counterexample :
    evaluate (.op (.value (Value.float 0x3F800000)) .divide (.value (Value.int 0))) none =
      .ok (Value.float 0x7F800000) := by decide

/-- C3 amended: when the dividend evaluates to an Int, a divisor
evaluating to integer zero or float zero makes the division evaluate to
`ValidationError("Division by 0")`; when the dividend evaluates to a
Float, the division succeeds with a Float result even for a zero
divisor. -/
theorem claim_C3_amended (e1 e2 : Expression) (env : Option (List (String × Value)))
    (v1 v2 : Value) (i : Int) (w : Nat)
    (he1 : evaluate e1 env = .ok v1) (he2 : evaluate e2 env = .ok v2)
    (hz : divisorIsZero v2 = true) :
    (v1 = Value.int i → evaluate (.op e1 .divide e2) env = .error divByZeroErr) ∧
    (v1 = Value.float w → isOkFloatB (evaluate (.op e1 .divide e2) env) = true) := by
  have hev := evaluate_op_eq e1 e2 .divide env v1 v2 he1 he2
  simp only at hev
  constructor
  · intro h1
    subst h1
    cases v2 with
    | int n =>
      have hn : n = 0 := by simpa [divisorIsZero] using hz
      subst hn
      rw [hev]
      simp [Value.div]
    | float z =>
      have hbeq : f32beq z 0 = true := by simpa [divisorIsZero] using hz
      rw [hev]
      simp [Value.div, f32ne, hbeq]
    | str s => simp [divisorIsZero] at hz
    | bool b => simp [divisorIsZero] at hz
    | null => simp [divisorIsZero] at hz
  · intro h1
    subst h1
    cases v2 with
    | int n => rw [hev]; rfl
    | float z => rw [hev]; rfl
    | str s => simp [divisorIsZero] at hz
    | bool b => simp [divisorIsZero] at hz
    | null => simp [divisorIsZero] at hz

/-- Witness for C3 amended: dividing `Float(1.0)` by the literal `Int 0`. -/
theorem claim_C3_witness :
    divisorIsZero (Value.int 0) = true ∧
    (Value.float 0x3F800000 = Value.int 0 →
      evaluate (.op (.value (Value.float 0x3F800000)) .divide (.value (Value.int 0))) none =
        .error divByZeroErr) ∧
    (Value.float 0x3F800000 = Value.float 0x3F800000 →
      isOkFloatB (evaluate (.op (.value (Value.float 0x3F800000)) .divide
        (.value (Value.int 0))) none) = true) := by
  have h := claim_C3_amended (.value (Value.float 0x3F800000)) (.value (Value.int 0)) none
    (Value.float 0x3F800000) (Value.int 0) 0 0x3F800000 rfl rfl (by decide)
  exact ⟨by decide, h.1, h.2⟩

/-- C4 counterexample: comparing `Str "a"` with `Int 1` under `=`
evaluates to `Ok(Bool(false))`, not to a validation error: the comparison
branch of `Expression::evaluate` always wraps the `PartialEq`/`PartialOrd`
verdict in a `Bool`. -/
theorem claim_C4_counterexample :
    evaluate (.comp (.value (Value.str [97])) .eq (.value (Value.int 1))) none =
      .ok (Value.bool false) := by decide

/-- C4 amended: for every comparison whose operands evaluate to a
combination outside the defined ones, evaluation still succeeds with a
Bool: `≠` yields true and every other comparator yields false (mismatched
variants are unequal under `PartialEq` and unordered under `PartialOrd`);
no validation error is produced. -/
theorem claim_C4_amended (e1 e2 : Expression) (c : Comparator)
    (env : Option (List (String × Value))) (v1 v2 : Value)
    (he1 : evaluate e1 env = .ok v1) (he2 : evaluate e2 env = .ok v2)
    (hinv : validCompCombo v1 v2 c = false) :
    evaluate (.comp e1 c e2) env = .ok (Value.bool (isNeqC c)) := by
  rw [evaluate_comp_eq e1 e2 c env v1 v2 he1 he2]
  suffices h : compValues c v1 v2 = isNeqC c by rw [h]
  cases v1 <;> cases v2 <;> cases c <;>
    simp_all [validCompCombo, isNumericValue, isStrValue, isBoolValue, isEqOrNeq,
      isNeqC, compValues, Value.beqv, Value.partialCmp]

/-- Witness for C4 amended: `Str "a" < Int 1` evaluates to `Bool(false)`. -/
theorem claim_C4_witness :
    validCompCombo (Value.str [97]) (Value.int 1) .lt = false ∧
    evaluate (.comp (.value (Value.str [97])) .lt (.value (Value.int 1))) none =
      .ok (Value.bool (isNeqC .lt)) :=
  ⟨by decide, claim_C4_amended _ _ _ _ _ _ rfl rfl (by decide)⟩

/-- C5 counterexample: after inserting `(1, "a")` into `t(id int, name str)`,
a select projecting only `name` still returns the full two-column record:
`select_records` never uses its projection argument. -/
theorem claim_C5_counterexample :
    insertRecordFile demoRecord2 [] = .ok demoFile2 ∧
    selectRecords demoTable2 ["name"] none demoFile2 = .ok [demoRecord2] ∧
    selectRecords demoTable2 ["name"] none demoFile2 ≠
      .ok [{ values := [Value.str [97]] }] := by
  have hsel : selectRecords demoTable2 ["name"] none demoFile2 = .ok [demoRecord2] := by
    rw [show demoFile2 =
      (Page.addItemS (Page.new 1) (Item.from_record demoRecord2)).2.toBytes from rfl]
    rw [select_after_single_add demoTable2 ["name"] (Item.from_record demoRecord2) 22
      (by decide) (by decide)]
    decide
  refine ⟨insertRecordFile_nil demoRecord2 (by decide), hsel, ?_⟩
  rw [hsel]
  decide

/-- C5 amended: the projection list is ignored by `select_records`; every
returned row carries all schema columns in schema order, so each returned
row has exactly the schema's column count (for `*` this coincides with the
original claim). -/
theorem claim_C5_amended (t : Table) (cols : List String) (cond : Option Expression)
    (file : List Nat) (rs : List Record)
    (h : selectRecords t cols cond file = .ok rs)
    (r : Record) (hr : r ∈ rs) :
    r.values.length = t.columns.length := by
  unfold selectRecords at h
  exact selectGo_mem_length t cond _ rs h r hr

/-- Witness for C5 amended at the concrete one-row scan of `demoFile2`. -/
theorem claim_C5_witness :
    selectRecords demoTable2 ["name"] none demoFile2 = .ok [demoRecord2] ∧
    demoRecord2 ∈ [demoRecord2] ∧
    demoRecord2.values.length = demoTable2.columns.length := by
  have hsel : selectRecords demoTable2 ["name"] none demoFile2 = .ok [demoRecord2] := by
    rw [show demoFile2 =
      (Page.addItemS (Page.new 1) (Item.from_record demoRecord2)).2.toBytes from rfl]
    rw [select_after_single_add demoTable2 ["name"] (Item.from_record demoRecord2) 22
      (by decide) (by decide)]
    decide
  exact ⟨hsel, by decide,
    claim_C5_amended demoTable2 ["name"] none demoFile2 [demoRecord2] hsel demoRecord2
      (by decide)⟩

/-- C6: the claim (and spec sections 3/8) say Int-vs-Float ordering is
decided by promoting the integer to float in either operand order.  The
source's `PartialOrd` instead truncates the float to an `i32` when the Int
is the left operand: `Int(1)` compared with `Float(1.5)` (bit pattern
0x3FC00000) yields `Ordering::Equal`, so `Int(1) < Float(1.5)` evaluates
to false, while promotion gives `1.0 < 1.5 = true`.  Spec section 9
already flags this truncation as the inconsistency of this revision. -/
theorem claim_C6_int_float_comparison_truncates :
    Value.partialCmp (Value.int 1) (Value.float 0x3FC00000) = some Ordering.eq ∧
    evaluate (.comp (.value (Value.int 1)) .lt (.value (Value.float 0x3FC00000))) none =
      .ok (Value.bool false) ∧
    f32lt (intToF32 1) 0x3FC00000 = true :=
  ⟨by decide, by decide, by decide⟩

/-- C7 counterexample: `Int 6 ÷ Int 2` yields `Float(3.0)`
(bit pattern 0x40400000), not a value of the Int variant: the source's
`Div` promotes both Int operands to f32. -/
theorem claim_C7_counterexample :
    Value.div (Value.int 6) (Value.int 2) = .ok (Value.float 0x40400000) ∧
    isOkIntB (Value.div (Value.int 6) (Value.int 2)) = false :=
  ⟨by decide, by decide⟩

/-- C7 amended: on two Int operands, `+`, `−` and `×` yield the Int
variant, while `÷` yields the Float variant whenever the divisor is
nonzero. -/
theorem claim_C7_amended (a b : Int) :
    isOkIntB (Value.add (Value.int a) (Value.int b)) = true ∧
    isOkIntB (Value.sub (Value.int a) (Value.int b)) = true ∧
    isOkIntB (Value.mul (Value.int a) (Value.int b)) = true ∧
    (b ≠ 0 → isOkFloatB (Value.div (Value.int a) (Value.int b)) = true) := by
  refine ⟨rfl, rfl, rfl, fun h => ?_⟩
  simp [Value.div, h, isOkFloatB]

/-- Witness for C7 amended at `a = 1, b = 2`. -/
theorem claim_C7_witness :
    (2 : Int) ≠ 0 ∧ isOkIntB (Value.add (Value.int 1) (Value.int 2)) = true ∧
    isOkFloatB (Value.div (Value.int 1) (Value.int 2)) = true :=
  ⟨by decide, (claim_C7_amended 1 2).1, (claim_C7_amended 1 2).2.2.2 (by decide)⟩

/-- C8: when the last page rejects the item with the not-enough-space
error and the item fits in an empty page, the insert allocates a page with
id `last.id + 1`, adds the item to it successfully, and appends it one
`PAGE_SIZE` past the old last page, growing the file by exactly 8192
bytes. -/
theorem claim_C8_insert_overflow_new_page (r : Record) (file : List Nat) (n : Nat)
    (hn : 0 < n) (hlen : file.length = n * PAGE_SIZE)
    (hfail : (Page.addItemS (Page.fromBytes (readPage file ((n - 1) * PAGE_SIZE)))
      (Item.from_record r)).1 = .error PagingError.notEnoughSpace)
    (hfit : (Item.from_record r).to_page_data.length + USIZE_SIZE * 2 ≤ PAGE_DATA_SIZE) :
    (Page.addItemS
      (Page.new ((Page.fromBytes (readPage file ((n - 1) * PAGE_SIZE))).id + 1))
      (Item.from_record r)).1 = .ok () ∧
    (Page.addItemS
      (Page.new ((Page.fromBytes (readPage file ((n - 1) * PAGE_SIZE))).id + 1))
      (Item.from_record r)).2.id =
      (Page.fromBytes (readPage file ((n - 1) * PAGE_SIZE))).id + 1 ∧
    insertRecordFile r file = .ok (file ++
      (Page.addItemS
        (Page.new ((Page.fromBytes (readPage file ((n - 1) * PAGE_SIZE))).id + 1))
        (Item.from_record r)).2.toBytes) ∧
    (file ++ (Page.addItemS
      (Page.new ((Page.fromBytes (readPage file ((n - 1) * PAGE_SIZE))).id + 1))
      (Item.from_record r)).2.toBytes).length = file.length + PAGE_SIZE := by
  have hps : PAGE_SIZE = 8192 := by decide
  have hok : (Page.addItemS
      (Page.new ((Page.fromBytes (readPage file ((n - 1) * PAGE_SIZE))).id + 1))
      (Item.from_record r)).1 = .ok () :=
    Page.addItemS_fst_ok _ _ (by simp [Page.new]; omega)
  have hid : (Page.addItemS
      (Page.new ((Page.fromBytes (readPage file ((n - 1) * PAGE_SIZE))).id + 1))
      (Item.from_record r)).2.id =
      (Page.fromBytes (readPage file ((n - 1) * PAGE_SIZE))).id + 1 := by
    rw [Page.addItemS_id]
    rfl
  have hdlen : (Page.addItemS
      (Page.new ((Page.fromBytes (readPage file ((n - 1) * PAGE_SIZE))).id + 1))
      (Item.from_record r)).2.data.length = PAGE_DATA_SIZE := by
    rw [Page.addItemS_new_eq _ _ hfit]
    simp [natToBeBytes_length]
    omega
  have htb : (Page.addItemS
      (Page.new ((Page.fromBytes (readPage file ((n - 1) * PAGE_SIZE))).id + 1))
      (Item.from_record r)).2.toBytes.length = PAGE_SIZE :=
    Page.toBytes_length _ hdlen
  refine ⟨hok, hid, ?_, by simp [List.length_append, htb]⟩
  have hcp : file.length / PAGE_SIZE = n := by
    rw [hlen]
    exact Nat.mul_div_cancel n (by decide)
  simp only [insertRecordFile, hcp, if_pos hn]
  rcases hpair : Page.addItemS (Page.fromBytes (readPage file ((n - 1) * PAGE_SIZE)))
    (Item.from_record r) with ⟨res, pp⟩
  rw [hpair] at hfail
  simp only at hfail
  subst hfail
  rcases hpair2 : Page.addItemS
      (Page.new ((Page.fromBytes (readPage file ((n - 1) * PAGE_SIZE))).id + 1))
      (Item.from_record r) with ⟨res2, p2⟩
  rw [hpair2] at hok
  simp only at hok
  subst hok
  rw [show (n - 1) * PAGE_SIZE + PAGE_SIZE = file.length from by rw [hlen, hps]; omega]
  dsimp only
  rw [writeAt_append]

/-- Witness for C8: inserting `(1)` into a file holding one page with
only 10 free bytes. -/
theorem claim_C8_witness :
    0 < 1 ∧ demoFullPageFile.length = 1 * PAGE_SIZE ∧
    (Page.addItemS (Page.fromBytes (readPage demoFullPageFile ((1 - 1) * PAGE_SIZE)))
      (Item.from_record demoRecord1)).1 = .error PagingError.notEnoughSpace ∧
    insertRecordFile demoRecord1 demoFullPageFile = .ok (demoFullPageFile ++
      (Page.addItemS
        (Page.new ((Page.fromBytes (readPage demoFullPageFile ((1 - 1) * PAGE_SIZE))).id + 1))
        (Item.from_record demoRecord1)).2.toBytes) ∧
    (demoFullPageFile ++ (Page.addItemS
      (Page.new ((Page.fromBytes (readPage demoFullPageFile ((1 - 1) * PAGE_SIZE))).id + 1))
      (Item.from_record demoRecord1)).2.toBytes).length =
      demoFullPageFile.length + PAGE_SIZE := by
  have hlen : demoFullPageFile.length = 1 * PAGE_SIZE := by
    simp [demoFullPageFile, natToBeBytes_length]
    decide
  have hfail : (Page.addItemS
      (Page.fromBytes (readPage demoFullPageFile ((1 - 1) * PAGE_SIZE)))
      (Item.from_record demoRecord1)).1 = .error PagingError.notEnoughSpace := by
    rw [show (1 - 1) * PAGE_SIZE = 0 from rfl, demoFullPageFile_read]
    exact Page.addItemS_fst_err _ _ (by decide)
  have h := claim_C8_insert_overflow_new_page demoRecord1 demoFullPageFile 1
    (by decide) hlen hfail (by decide)
  exact ⟨by decide, hlen, hfail, h.2.2.1, h.2.2.2⟩

/-- C9: every page reachable during a scan (built by `Page::new` and
successful `Page::add_item` calls; serialization images coincide with the
pages by the first conjunct) survives the byte round trip and satisfies
the free-space invariant: `from_bytes(to_bytes(P)) = P` and
`free_space_start ≤ free_space_end`. -/
theorem claim_C9_page_roundtrip (p : Page) (h : Page.Reachable p) :
    Page.fromBytes p.toBytes = p ∧ p.free_space_start ≤ p.free_space_end := by
  obtain ⟨h1, h2, h3, h4⟩ := Page.reachable_wf h
  have hpds : PAGE_DATA_SIZE = 8172 := by decide
  exact ⟨Page.fromBytes_toBytes p h3 h4 (by omega) (by omega), h1⟩

/-- Witness for C9 at the freshly allocated page 1. -/
theorem claim_C9_witness :
    Page.fromBytes (Page.new 1).toBytes = Page.new 1 ∧
    (Page.new 1).free_space_start ≤ (Page.new 1).free_space_end :=
  claim_C9_page_roundtrip (Page.new 1) (Page.Reachable.new 1 (by decide))

/-- C10: `Page::add_item` returns the not-enough-space error exactly when
the item's encoded size plus two word sizes exceeds
`free_space_end - free_space_start`, and in that case the page keeps its
id, both free-space offsets and every body byte.  The hypothesis
`free_space_start ≤ free_space_end` restricts to the states Rust's usize
subtraction tolerates. -/
theorem claim_C10_add_item_space_check (p : Page) (it : Item)
    (_h : p.free_space_start ≤ p.free_space_end) :
    ((Page.addItemS p it).1 = .error PagingError.notEnoughSpace ↔
      it.to_page_data.length + USIZE_SIZE * 2 >
        p.free_space_end - p.free_space_start) ∧
    ((Page.addItemS p it).1 = .error PagingError.notEnoughSpace →
      (Page.addItemS p it).2.id = p.id ∧
      (Page.addItemS p it).2.free_space_start = p.free_space_start ∧
      (Page.addItemS p it).2.free_space_end = p.free_space_end ∧
      (Page.addItemS p it).2.data = p.data) := by
  by_cases hc : it.to_page_data.length + USIZE_SIZE * 2 >
      p.free_space_end - p.free_space_start
  · have hpair : Page.addItemS p it = (.error PagingError.notEnoughSpace, p) := by
      simp only [Page.addItemS]
      rw [if_pos (by omega)]
    refine ⟨⟨fun _ => hc, fun _ => by rw [hpair]⟩, fun _ => ?_⟩
    rw [hpair]
    exact ⟨rfl, rfl, rfl, rfl⟩
  · push_neg at hc
    have hok := Page.addItemS_fst_ok p it hc
    have hne : (Page.addItemS p it).1 ≠ .error PagingError.notEnoughSpace := by
      rw [hok]
      simp
    exact ⟨⟨fun habs => absurd habs hne, fun habs => by omega⟩,
      fun habs => absurd habs hne⟩

/-- Witness for C10 at a fresh page 2 and the one-int-record item. -/
theorem claim_C10_witness :
    (Page.new 2).free_space_start ≤ (Page.new 2).free_space_end ∧
    (((Page.addItemS (Page.new 2) (Item.from_record demoRecord1)).1 =
        .error PagingError.notEnoughSpace ↔
      (Item.from_record demoRecord1).to_page_data.length + USIZE_SIZE * 2 >
        (Page.new 2).free_space_end - (Page.new 2).free_space_start) ∧
    ((Page.addItemS (Page.new 2) (Item.from_record demoRecord1)).1 =
        .error PagingError.notEnoughSpace →
      (Page.addItemS (Page.new 2) (Item.from_record demoRecord1)).2.id = (Page.new 2).id ∧
      (Page.addItemS (Page.new 2) (Item.from_record demoRecord1)).2.free_space_start =
        (Page.new 2).free_space_start ∧
      (Page.addItemS (Page.new 2) (Item.from_record demoRecord1)).2.free_space_end =
        (Page.new 2).free_space_end ∧
      (Page.addItemS (Page.new 2) (Item.from_record demoRecord1)).2.data =
        (Page.new 2).data)) :=
  ⟨by decide, claim_C10_add_item_space_check (Page.new 2) (Item.from_record demoRecord1)
    (by decide)⟩

end Csbase
